import Mathlib

/-!
Verification of the artifact-discovery and tree-assembly pipeline of
`twrpdtgen/device_tree.py`.

The filesystem is embedded shallowly: a state holds an association list of
regular files (path to content), a list of existing directories, and an
association list of explicitly-set permission modes.  Paths are lists of
name components.  Every Python function relevant to the claims is translated
into an executable Lean definition over this state.
-/

abbrev FPath := List String

structure FSState where
  files : List (FPath × String)
  dirs : List FPath
  perms : List (FPath × Nat)
deriving DecidableEq

/-- Content of the regular file at `p`, when one exists. -/
def lookupFile (fs : FSState) (p : FPath) : Option String :=
  match fs.files.find? (fun e => decide (e.1 = p)) with
  | some e => some e.2
  | none => none

/-- Explicitly-set permission mode of the file at `p`, when one was set. -/
def permsOf (fs : FSState) (p : FPath) : Option Nat :=
  match fs.perms.find? (fun e => decide (e.1 = p)) with
  | some e => some e.2
  | none => none

/-- `FPath.is_file()` -/
def isFileB (fs : FSState) (p : FPath) : Bool := (lookupFile fs p).isSome

/-- `FPath.is_dir()` -/
def isDirB (fs : FSState) (p : FPath) : Bool := decide (p ∈ fs.dirs)

/-- `FPath.exists()` -/
def existsB (fs : FSState) (p : FPath) : Bool := isFileB fs p || isDirB fs p

/-- `FPath.parent` -/
def parentDir (p : FPath) : FPath := p.dropLast

/-- `FPath.name` -/
def lastName (p : FPath) : String := p.getLast?.getD ""

/-- Well-formedness of a filesystem state: files hang below existing
directories, directories are closed under parents, and permission modes are
only recorded for existing files. -/
def WFb (fs : FSState) : Bool :=
  fs.files.all (fun e => decide (e.1 ≠ []) && decide (parentDir e.1 ∈ fs.dirs)) &&
  fs.dirs.all (fun d => decide (d = []) || decide (parentDir d ∈ fs.dirs)) &&
  fs.perms.all (fun e => decide (e.1 ∈ fs.files.map Prod.fst))

/-! ### Candidate locations (`device_tree.py` lines 22-97) -/

/-- `BUILDPROP_LOCATIONS`: two legacy default-property names at the ramdisk
root, then the `system`/`vendor` property files and their `etc` variants. -/
def BUILDPROP_LOCATIONS : List FPath :=
  [["default.prop"], ["prop.default"]] ++
  (["system", "vendor"].map (fun d => [d, "build.prop"])) ++
  (["system", "vendor"].map (fun d => [d, "etc", "build.prop"]))

/-- The fixed extended candidate set appended for one existing dump
directory (`extended_locations` in `get_extended_buildprop_locations`). -/
def extendedLocations (dumpDir : FPath) : List FPath :=
  [dumpDir ++ ["system", "system", "build.prop"],
   dumpDir ++ ["system", "build.prop"],
   dumpDir ++ ["vendor", "build.prop"],
   dumpDir ++ ["vendor_boot", "ramdisk", "default.prop"],
   dumpDir ++ ["vendor_boot", "ramdisk", "prop.default"],
   dumpDir ++ ["vendor_boot", "ramdisk", "build.prop"],
   dumpDir ++ ["vendor_boot", "ramdisk", "system", "build.prop"],
   dumpDir ++ ["vendor_boot", "ramdisk", "vendor", "build.prop"],
   dumpDir ++ ["system", "etc", "build.prop"],
   dumpDir ++ ["vendor", "etc", "build.prop"],
   dumpDir ++ ["product", "build.prop"],
   dumpDir ++ ["system_ext", "build.prop"],
   dumpDir ++ ["odm", "build.prop"],
   dumpDir ++ ["boot", "ramdisk", "default.prop"],
   dumpDir ++ ["boot", "ramdisk", "prop.default"],
   dumpDir ++ ["recovery", "ramdisk", "default.prop"],
   dumpDir ++ ["recovery", "ramdisk", "prop.default"]]

/-- The `for dump_dir in possible_dump_paths` loop: directories that do not
exist are skipped (`continue`), existing ones contribute their extended
candidate set, in order. -/
def extendedScan (fs : FSState) : List FPath → List FPath
  | [] => []
  | d :: rest =>
    if existsB fs d then extendedLocations d ++ extendedScan fs rest
    else extendedScan fs rest

/-- `get_extended_buildprop_locations(base_path)` (lines 35-89). -/
def get_extended_buildprop_locations (fs : FSState) (basePath : FPath) : List FPath :=
  let locations := BUILDPROP_LOCATIONS.map (fun l => basePath ++ l)
  let dumpPath := parentDir basePath
  locations ++ extendedScan fs [dumpPath, parentDir dumpPath, parentDir (parentDir dumpPath)]

/-- The `for ...: if not ...is_file(): continue; ...; break` discovery loop,
returning the first candidate that is a regular file. -/
def firstExistingFile (fs : FSState) : List FPath → Option FPath
  | [] => none
  | l :: rest => if isFileB fs l then some l else firstExistingFile fs rest

/-- The build.prop discovery loop of `DeviceTree.__init__` (lines 140-147),
recorded as the list of locations passed to `import_props`: the loop imports
the first existing candidate and then `break`s. -/
def buildPropImports (fs : FSState) : List FPath → List FPath
  | [] => []
  | l :: rest => if isFileB fs l then [l] else buildPropImports fs rest

/-- `FSTAB_LOCATIONS` (lines 91-93). -/
def FSTAB_LOCATIONS : List FPath :=
  [["etc", "recovery.fstab"]] ++
  (["system", "vendor"].map (fun d => [d, "etc", "recovery.fstab"]))

/-- `INIT_RC_LOCATIONS` (lines 95-97). -/
def INIT_RC_LOCATIONS : List FPath :=
  [[]] ++ (["system", "vendor"].map (fun d => [d, "etc", "init"]))

/-- Name of `q` when it is a direct child of directory `d`. -/
def childName (d q : FPath) : Option String :=
  if parentDir q = d then q.getLast? else none

/-- `FPath.iterdir()`: names of the direct children (files, then
subdirectories) of `d`. -/
def iterdir (fs : FSState) (d : FPath) : List String :=
  fs.files.filterMap (fun e => childName d e.1) ++ fs.dirs.filterMap (fun q => childName d q)

/-- `str.endswith` on the characters of the string. -/
def sufEndsWith (s suf : String) : Bool := decide (suf.data <:+ s.data)

/-- The filter of the init-script scan: names ending in `.rc`, except the
reserved `init.rc`. -/
def isInitRcName (n : String) : Bool := sufEndsWith n ".rc" && decide (n ≠ "init.rc")

/-- The init-rc collection loop of `DeviceTree.__init__` (lines 175-181). -/
def scanInitRcs (fs : FSState) (rd : FPath) : List FPath :=
  (INIT_RC_LOCATIONS.map (fun l => rd ++ l)).foldl
    (fun acc d =>
      if isDirB fs d then
        acc ++ ((iterdir fs d).filter isInitRcName).map (fun n => d ++ [n])
      else acc) []

/-! ### Spec-side restatement of the search-list shape (claim C3) -/

/-- Appends `f d` for each `d` in a list, in order. -/
def scanAppend (f : FPath → List FPath) : List FPath → List FPath
  | [] => []
  | d :: rest => f d ++ scanAppend f rest

/-- Restatement following the claim's words: after the ramdisk-relative
candidates, ascend through the parent directories of the ramdisk root (the
dump directory itself, its parent, its grandparent), keep those that exist
on disk, and append the fixed extended candidate set for each, in order. -/
def claimedBuildPropSearchList (fs : FSState) (basePath : FPath) : List FPath :=
  (BUILDPROP_LOCATIONS.map (fun l => basePath ++ l)) ++
  scanAppend extendedLocations
    (([parentDir basePath, parentDir (parentDir basePath),
       parentDir (parentDir (parentDir basePath))]).filter (fun d => existsB fs d))

/-! ### Discovery-phase errors and logging (`__init__`, lines 131-172) -/

inductive InitError where
  | assertionError (msg : String)
deriving DecidableEq

inductive LogEntry where
  | gettingDeviceInfos
  | searchingBuildProp (count : Nat)
  | loadingBuildProp (p : FPath)
  | searchedLocationsHeader
  | locationStatus (p : FPath) (present : Bool)
  | generatingFstab (p : FPath)
deriving DecidableEq

structure InitResult where
  buildPropSource : FPath
  fstabSource : FPath
  initRcs : List FPath
deriving DecidableEq

deriving instance DecidableEq for Except

/-- The fstab discovery of `DeviceTree.__init__` (lines 160-170): first
existing candidate wins, `AssertionError("fstab not found")` when none
exists. -/
def initFstab (fs : FSState) (ramdiskPath : FPath) : Except InitError FPath :=
  match firstExistingFile fs (FSTAB_LOCATIONS.map (fun l => ramdiskPath ++ l)) with
  | some p => Except.ok p
  | none => Except.error (InitError.assertionError "fstab not found")

/-- The discovery portion of `DeviceTree.__init__` after the ramdisk was
chosen (lines 131-181): build.prop search with debug logging, fstab search,
init-rc scan.  The first component is the emitted debug log. -/
def deviceTreeInit (fs : FSState) (ramdiskPath : FPath) :
    List LogEntry × Except InitError InitResult :=
  let locs := get_extended_buildprop_locations fs ramdiskPath
  let log0 := [LogEntry.gettingDeviceInfos, LogEntry.searchingBuildProp locs.length]
  match firstExistingFile fs locs with
  | none =>
    (log0 ++ [LogEntry.searchedLocationsHeader] ++
      locs.map (fun l => LogEntry.locationStatus l (existsB fs l)),
     Except.error (InitError.assertionError
       "No build.prop file found in any of the searched locations"))
  | some bp =>
    match initFstab fs ramdiskPath with
    | Except.error e => (log0 ++ [LogEntry.loadingBuildProp bp], Except.error e)
    | Except.ok fp =>
      (log0 ++ [LogEntry.loadingBuildProp bp, LogEntry.generatingFstab fp],
       Except.ok ⟨bp, fp, scanInitRcs fs ramdiskPath⟩)

/-! ### Helper lemmas about the discovery loops -/

theorem firstExistingFile_eq_none (fs : FSState) (locs : List FPath)
    (h : ∀ l ∈ locs, isFileB fs l = false) : firstExistingFile fs locs = none := by
  induction locs with
  | nil => rfl
  | cons a rest ih =>
    have ha := h a (by simp)
    simp [firstExistingFile, ha]
    exact ih (fun l hl => h l (by simp [hl]))

theorem firstExistingFile_eq_some (fs : FSState) (locs : List FPath) (p : FPath)
    (h : firstExistingFile fs locs = some p) :
    ∃ l₁ l₂, locs = l₁ ++ p :: l₂ ∧ isFileB fs p = true ∧
      ∀ q ∈ l₁, isFileB fs q = false := by
  induction locs with
  | nil => simp [firstExistingFile] at h
  | cons a rest ih =>
    by_cases ha : isFileB fs a = true
    · refine ⟨[], rest, ?_, ?_, by simp⟩
      · simp [firstExistingFile, ha] at h
        simp [h]
      · simp [firstExistingFile, ha] at h
        rw [← h]; exact ha
    · have ha' : isFileB fs a = false := by
        cases hc : isFileB fs a
        · rfl
        · exact absurd hc ha
      simp [firstExistingFile, ha'] at h
      obtain ⟨l₁, l₂, hsplit, hp, hall⟩ := ih h
      refine ⟨a :: l₁, l₂, by simp [hsplit], hp, ?_⟩
      intro q hq
      rcases List.mem_cons.mp hq with hq | hq
      · rw [hq]; exact ha'
      · exact hall q hq

theorem buildPropImports_first (fs : FSState) (locs : List FPath)
    (h : ∃ l ∈ locs, isFileB fs l = true) :
    ∃ l₁ p l₂, locs = l₁ ++ p :: l₂ ∧ buildPropImports fs locs = [p] ∧
      isFileB fs p = true ∧ ∀ q ∈ l₁, isFileB fs q = false := by
  induction locs with
  | nil => simp at h
  | cons a rest ih =>
    by_cases ha : isFileB fs a = true
    · exact ⟨[], a, rest, rfl, by simp [buildPropImports, ha], ha, by simp⟩
    · have ha' : isFileB fs a = false := by
        cases hc : isFileB fs a
        · rfl
        · exact absurd hc ha
      obtain ⟨l, hl, hf⟩ := h
      have hlr : l ∈ rest := by
        rcases List.mem_cons.mp hl with hq | hq
        · subst hq; simp [hf] at ha'
        · exact hq
      obtain ⟨l₁, p, l₂, hsplit, himp, hp, hall⟩ := ih ⟨l, hlr, hf⟩
      refine ⟨a :: l₁, p, l₂, by simp [hsplit], ?_, hp, ?_⟩
      · simp [buildPropImports, ha', himp]
      · intro q hq
        rcases List.mem_cons.mp hq with hq | hq
        · rw [hq]; exact ha'
        · exact hall q hq

/-! ### Claims C1, C3, C4 -/

/-- Claim C1: for every unpacked image in which property files exist at more
than one candidate location (more generally, at least one), discovery parses
exactly the first existing candidate of the fixed ordered search list: the
list of imported files is that single file, every earlier candidate is not a file, and
no lower-priority candidate is merged into the result. -/
theorem buildprop_discovery_first_match (fs : FSState) (basePath : FPath)
    (h : ∃ l ∈ get_extended_buildprop_locations fs basePath, isFileB fs l = true) :
    ∃ l₁ p l₂, get_extended_buildprop_locations fs basePath = l₁ ++ p :: l₂ ∧
      buildPropImports fs (get_extended_buildprop_locations fs basePath) = [p] ∧
      isFileB fs p = true ∧ ∀ q ∈ l₁, isFileB fs q = false :=
  buildPropImports_first fs (get_extended_buildprop_locations fs basePath) h

/-- A concrete image with property files at two candidate locations:
`prop.default` at the ramdisk root and `system/build.prop`. -/
def fsC1 : FSState :=
  ⟨[(["rd", "prop.default"], "high"), (["rd", "system", "build.prop"], "low")], [], []⟩

theorem buildprop_discovery_first_match_witness :
    (∃ l ∈ get_extended_buildprop_locations fsC1 ["rd"], isFileB fsC1 l = true) ∧
    (∃ l₁ p l₂, get_extended_buildprop_locations fsC1 ["rd"] = l₁ ++ p :: l₂ ∧
      buildPropImports fsC1 (get_extended_buildprop_locations fsC1 ["rd"]) = [p] ∧
      isFileB fsC1 p = true ∧ ∀ q ∈ l₁, isFileB fsC1 q = false) :=
  ⟨by decide, buildprop_discovery_first_match fsC1 ["rd"] (by decide)⟩

theorem extendedScan_eq_filter (fs : FSState) (l : List FPath) :
    extendedScan fs l =
      scanAppend extendedLocations (l.filter (fun d => existsB fs d)) := by
  induction l with
  | nil => rfl
  | cons d rest ih =>
    by_cases hd : existsB fs d = true
    · simp [extendedScan, hd, List.filter_cons, scanAppend, ih]
    · have hd' : existsB fs d = false := by
        cases hc : existsB fs d
        · rfl
        · exact absurd hc hd
      simp [extendedScan, hd', List.filter_cons, ih]

/-- Claim C3: after the ramdisk-relative candidates, the search list ascends
through the parent directories of the ramdisk root (the dump directory, i.e.
the ramdisk root's parent, itself, then its parent, then its grandparent)
and, for each of those directories that exists on disk, appends the fixed
extended candidate set, in order. -/
theorem buildprop_search_ascends_parents (fs : FSState) (basePath : FPath) :
    get_extended_buildprop_locations fs basePath =
      claimedBuildPropSearchList fs basePath := by
  simp only [get_extended_buildprop_locations, claimedBuildPropSearchList]
  rw [extendedScan_eq_filter]

/-- Claim C4: partition-table discovery checks exactly the three fixed
candidates `etc/recovery.fstab`, `system/etc/recovery.fstab`,
`vendor/etc/recovery.fstab` relative to the ramdisk root, short-circuits at
the first existing one (every earlier candidate is not a file), never tries
a fourth location (any successful result is one of the three), and raises
`AssertionError("fstab not found")` when none of the three exists. -/
theorem fstab_discovery_three_candidates (fs : FSState) (rd : FPath) :
    (FSTAB_LOCATIONS.map (fun l => rd ++ l) =
      [rd ++ ["etc", "recovery.fstab"], rd ++ ["system", "etc", "recovery.fstab"],
       rd ++ ["vendor", "etc", "recovery.fstab"]]) ∧
    ((∀ p ∈ FSTAB_LOCATIONS.map (fun l => rd ++ l), isFileB fs p = false) →
      initFstab fs rd = Except.error (InitError.assertionError "fstab not found")) ∧
    (∀ p, initFstab fs rd = Except.ok p →
      ∃ l₁ l₂, FSTAB_LOCATIONS.map (fun l => rd ++ l) = l₁ ++ p :: l₂ ∧
        isFileB fs p = true ∧ ∀ q ∈ l₁, isFileB fs q = false) := by
  refine ⟨by simp [FSTAB_LOCATIONS], ?_, ?_⟩
  · intro h
    unfold initFstab
    rw [firstExistingFile_eq_none fs _ h]
  · intro p hp
    unfold initFstab at hp
    cases hfind : firstExistingFile fs (FSTAB_LOCATIONS.map (fun l => rd ++ l)) with
    | none => rw [hfind] at hp; cases hp
    | some q =>
      rw [hfind] at hp
      have hq : q = p := by cases hp; rfl
      rw [hq] at hfind
      exact firstExistingFile_eq_some fs _ p hfind

/-- The empty filesystem. -/
def fsEmpty : FSState := ⟨[], [], []⟩

theorem fstab_discovery_three_candidates_witness :
    (FSTAB_LOCATIONS.map (fun l => ["r"] ++ l) =
      [["r", "etc", "recovery.fstab"], ["r", "system", "etc", "recovery.fstab"],
       ["r", "vendor", "etc", "recovery.fstab"]]) ∧
    initFstab fsEmpty ["r"] = Except.error (InitError.assertionError "fstab not found") :=
  ⟨(fstab_discovery_three_candidates fsEmpty ["r"]).1,
   (fstab_discovery_three_candidates fsEmpty ["r"]).2.1 (by decide)⟩

/-! ### Claim C5: what discovery failures carry -/

/-- A filesystem holding a property file under each of two ramdisk roots and
no partition-table file, so fstab discovery fails. -/
def fsC5 : FSState := ⟨[(["r", "default.prop"], "x"), (["s", "default.prop"], "x")], [], []⟩

/-- Claim C5 counterexample: the failures raised after exhausting the
candidates are constant `AssertionError` values.  Two runs whose attempted
location lists differ raise exactly the same error value, for both the
property-file search and the partition-table search, so the raised failure
cannot carry the attempted-location list. -/
theorem discovery_failure_no_list_cex :
    ((deviceTreeInit fsEmpty ["a"]).2 =
      Except.error (InitError.assertionError
        "No build.prop file found in any of the searched locations")) ∧
    ((deviceTreeInit fsEmpty ["b"]).2 = (deviceTreeInit fsEmpty ["a"]).2) ∧
    (get_extended_buildprop_locations fsEmpty ["a"] ≠
      get_extended_buildprop_locations fsEmpty ["b"]) ∧
    ((deviceTreeInit fsC5 ["r"]).2 =
      Except.error (InitError.assertionError "fstab not found")) ∧
    ((deviceTreeInit fsC5 ["s"]).2 = (deviceTreeInit fsC5 ["r"]).2) ∧
    (FSTAB_LOCATIONS.map (fun l => ["r"] ++ l) ≠
      FSTAB_LOCATIONS.map (fun l => ["s"] ++ l)) := by
  decide

/-- Claim C5 amended: the raised errors carry only a fixed message.  For
property-file discovery the full ordered attempted-location list (with an
existence flag per location) is emitted to the debug log before raising;
for partition-table discovery a fixed-message error is raised and no
attempted-location list is reported at all. -/
theorem discovery_failure_reporting (fs : FSState) (rd : FPath) :
    ((∀ l ∈ get_extended_buildprop_locations fs rd, isFileB fs l = false) →
      deviceTreeInit fs rd =
        ([LogEntry.gettingDeviceInfos,
          LogEntry.searchingBuildProp (get_extended_buildprop_locations fs rd).length,
          LogEntry.searchedLocationsHeader] ++
          (get_extended_buildprop_locations fs rd).map
            (fun l => LogEntry.locationStatus l (existsB fs l)),
         Except.error (InitError.assertionError
           "No build.prop file found in any of the searched locations"))) ∧
    (∀ bp, firstExistingFile fs (get_extended_buildprop_locations fs rd) = some bp →
      (∀ p ∈ FSTAB_LOCATIONS.map (fun l => rd ++ l), isFileB fs p = false) →
      deviceTreeInit fs rd =
        ([LogEntry.gettingDeviceInfos,
          LogEntry.searchingBuildProp (get_extended_buildprop_locations fs rd).length,
          LogEntry.loadingBuildProp bp],
         Except.error (InitError.assertionError "fstab not found"))) := by
  constructor
  · intro h
    simp only [deviceTreeInit]
    rw [firstExistingFile_eq_none fs _ h]
    simp
  · intro bp hbp hnone
    simp only [deviceTreeInit]
    rw [hbp]
    simp only [initFstab]
    rw [firstExistingFile_eq_none fs _ hnone]
    simp

theorem discovery_failure_reporting_witness :
    (deviceTreeInit fsEmpty ["a"] =
      ([LogEntry.gettingDeviceInfos,
        LogEntry.searchingBuildProp (get_extended_buildprop_locations fsEmpty ["a"]).length,
        LogEntry.searchedLocationsHeader] ++
        (get_extended_buildprop_locations fsEmpty ["a"]).map
          (fun l => LogEntry.locationStatus l (existsB fsEmpty l)),
       Except.error (InitError.assertionError
         "No build.prop file found in any of the searched locations"))) ∧
    (deviceTreeInit fsC5 ["r"] =
      ([LogEntry.gettingDeviceInfos,
        LogEntry.searchingBuildProp (get_extended_buildprop_locations fsC5 ["r"]).length,
        LogEntry.loadingBuildProp ["r", "default.prop"]],
       Except.error (InitError.assertionError "fstab not found"))) :=
  ⟨(discovery_failure_reporting fsEmpty ["a"]).1 (by decide),
   (discovery_failure_reporting fsC5 ["r"]).2 ["r", "default.prop"] (by decide) (by decide)⟩

/-! ### Claim C8: snapshot-recorder identity handling (lines 234-245) -/

def fallbackEmail : String := "barezzisebastiano@gmail.com"

def fallbackName : String := "Sebastiano Barezzi"

structure GitConfig where
  email : Option String
  name : Option String
deriving DecidableEq

/-- The tuple read
`git_config_reader.get_value('user','email'), git_config_reader.get_value('user','name')`
under its `try`/`except`: if either read raises (value unset), both
variables become `None` (lines 238-241). -/
def readIdentity (cfg : GitConfig) : Option String × Option String :=
  match cfg.email, cfg.name with
  | some e, some n => (some e, some n)
  | _, _ => (none, none)

/-- The identity-injection step of the snapshot recorder (lines 238-245):
when either read-back value is `None`, both `user.email` and `user.name`
are set to the fixed fallback identity. -/
def recordIdentity (cfg : GitConfig) : GitConfig :=
  let p := readIdentity cfg
  if p.1.isNone || p.2.isNone then
    { email := some fallbackEmail, name := some fallbackName }
  else cfg

/-- Claim C8 counterexample: with `user.name` configured as `"Alice"` and
`user.email` unset, the recorder overwrites the already-configured name
with the fallback identity, refuting "an identity value that is already
configured is never overwritten". -/
theorem identity_overwrite_cex :
    (GitConfig.mk none (some "Alice")).name = some "Alice" ∧
    (recordIdentity (GitConfig.mk none (some "Alice"))).name = some "Sebastiano Barezzi" ∧
    (recordIdentity (GitConfig.mk none (some "Alice"))).name ≠
      (GitConfig.mk none (some "Alice")).name := by
  decide

/-- Claim C8 amended: the recorder reads the configured author name and
email; when both are configured nothing is changed, and when either is
unset it sets **both** values to the fixed fallback identity, overwriting a
configured value of the other field. -/
theorem identity_fallback_injection (cfg : GitConfig) :
    ((cfg.email.isSome && cfg.name.isSome) = true → recordIdentity cfg = cfg) ∧
    ((cfg.email.isSome && cfg.name.isSome) = false →
      recordIdentity cfg = GitConfig.mk (some fallbackEmail) (some fallbackName)) := by
  obtain ⟨e, n⟩ := cfg
  cases e <;> cases n <;>
    simp [recordIdentity, readIdentity]

theorem identity_fallback_injection_witness :
    recordIdentity (GitConfig.mk (some "a@b.c") (some "N")) =
      GitConfig.mk (some "a@b.c") (some "N") ∧
    recordIdentity (GitConfig.mk none none) =
      GitConfig.mk (some fallbackEmail) (some fallbackName) :=
  ⟨(identity_fallback_injection (GitConfig.mk (some "a@b.c") (some "N"))).1 (by decide),
   (identity_fallback_injection (GitConfig.mk none none)).2 (by decide)⟩

/-! ### Tree assembly: `DeviceTree.dump_to_folder` (lines 183-229) -/

/-- Writing a file (template rendering, `write_text`, `copyfile` target). -/
def setFile (p : FPath) (c : String) (fs : FSState) : FSState :=
  { fs with files := (p, c) :: fs.files.filter (fun e => !decide (e.1 = p)) }

/-- `os.chmod`: records the explicitly-set mode for `p`. -/
def chmodFS (p : FPath) (m : Nat) (fs : FSState) : FSState :=
  { fs with perms := (p, m) :: fs.perms.filter (fun e => !decide (e.1 = p)) }

/-- `shutil.rmtree(d)`: removes `d` and everything below it. -/
def rmtreeFS (d : FPath) (fs : FSState) : FSState :=
  { files := fs.files.filter (fun e => !decide (d <+: e.1)),
    dirs := fs.dirs.filter (fun q => !decide (d <+: q)),
    perms := fs.perms.filter (fun e => !decide (d <+: e.1)) }

/-- `Path.mkdir(parents=True)`: creates `p` and all its ancestors. -/
def mkdirP (p : FPath) (fs : FSState) : FSState :=
  { fs with dirs := p.inits ++ fs.dirs }

/-- The binary partition artifacts reported by the image unpacker. -/
structure ImageInfoM where
  kernel : Option FPath
  dt : Option FPath
  dtb : Option FPath
  dtbo : Option FPath
deriving DecidableEq

/-- The data a constructed `DeviceTree` carries into `dump_to_folder`:
device identity, unpacked-image artifacts, the formatted fstab text
(`self.fstab.format(twrp=True)`), the collected init scripts, and the
external template renderer (template name to rendered text). -/
structure DeviceTreeM where
  manufacturer : String
  codename : String
  imageInfo : ImageInfoM
  fstabText : String
  initRcs : List FPath
  render : String → String

def S_IRWXU : Nat := 0o700

def S_IRGRP : Nat := 0o040

def S_IROTH : Nat := 0o004

/-- The mode passed to both `chmod` calls (line 208-209). -/
def scriptMode : Nat := S_IRWXU ||| S_IRGRP ||| S_IROTH

inductive DumpError where
  | mkdirExists (p : FPath)
  | copySrcMissing (p : FPath)
deriving DecidableEq

/-- One filesystem effect of the assembly phase. -/
inductive Step where
  | writeConst (dst : FPath) (content : String)
  | chmodStep (dst : FPath) (mode : Nat)
  | copyStep (src dst : FPath)
  | copyOpt (src : Option FPath) (dst : FPath)
deriving DecidableEq

def runStep (st : Step) (fs : FSState) : Except (DumpError × FSState) FSState :=
  match st with
  | Step.writeConst dst c => Except.ok (setFile dst c fs)
  | Step.chmodStep dst m => Except.ok (chmodFS dst m fs)
  | Step.copyStep src dst =>
    match lookupFile fs src with
    | none => Except.error (DumpError.copySrcMissing src, fs)
    | some c => Except.ok (setFile dst c fs)
  | Step.copyOpt osrc dst =>
    match osrc with
    | none => Except.ok fs
    | some src =>
      match lookupFile fs src with
      | none => Except.error (DumpError.copySrcMissing src, fs)
      | some c => Except.ok (setFile dst c fs)

def runSteps : List Step → FSState → Except (DumpError × FSState) FSState
  | [], fs => Except.ok fs
  | st :: rest, fs =>
    match runStep st fs with
    | Except.error e => Except.error e
    | Except.ok fs' => runSteps rest fs'

/-- The fixed template list of lines 196-205 (template name, output name);
only `omni_device.mk` has an output name parameterized by codename. -/
def templateFiles (dt : DeviceTreeM) : List (String × String) :=
  [("Android.bp", "Android.bp"), ("Android.mk", "Android.mk"),
   ("AndroidProducts.mk", "AndroidProducts.mk"), ("BoardConfig.mk", "BoardConfig.mk"),
   ("device.mk", "device.mk"), ("extract-files.sh", "extract-files.sh"),
   ("omni_device.mk", "omni_" ++ dt.codename ++ ".mk"), ("README.md", "README.md"),
   ("setup-makefiles.sh", "setup-makefiles.sh"), ("vendorsetup.sh", "vendorsetup.sh")]

def renderSteps (dt : DeviceTreeM) (folder : FPath) : List Step :=
  (templateFiles dt).map (fun e => Step.writeConst (folder ++ [e.2]) (dt.render e.1))

def chmodSteps (folder : FPath) : List Step :=
  [Step.chmodStep (folder ++ ["extract-files.sh"]) scriptMode,
   Step.chmodStep (folder ++ ["setup-makefiles.sh"]) scriptMode]

def artifactSteps (dt : DeviceTreeM) (folder : FPath) : List Step :=
  [Step.copyOpt dt.imageInfo.kernel (folder ++ ["prebuilt", "kernel"]),
   Step.copyOpt dt.imageInfo.dt (folder ++ ["prebuilt", "dt.img"]),
   Step.copyOpt dt.imageInfo.dtb (folder ++ ["prebuilt", "dtb.img"]),
   Step.copyOpt dt.imageInfo.dtbo (folder ++ ["prebuilt", "dtbo.img"])]

def fstabSteps (dt : DeviceTreeM) (folder : FPath) : List Step :=
  [Step.writeConst (folder ++ ["recovery.fstab"]) dt.fstabText]

def rcSteps (dt : DeviceTreeM) (folder : FPath) : List Step :=
  dt.initRcs.map (fun r => Step.copyStep r (folder ++ ["recovery", "root", lastName r]))

/-- All assembly effects after the directories were created, in source
order: template renders (196-205), the two `chmod`s (208-209), the four
optional artifact copies (212-219), the fstab write (222), the init-script
copies (225-226). -/
def dumpSteps (dt : DeviceTreeM) (folder : FPath) : List Step :=
  renderSteps dt folder ++ chmodSteps folder ++ artifactSteps dt folder ++
  fstabSteps dt folder ++ rcSteps dt folder

/-- `output_path / manufacturer / codename` (line 184). -/
def dtFolder (dt : DeviceTreeM) (outputPath : FPath) : FPath :=
  outputPath ++ [dt.manufacturer, dt.codename]

/-- Lines 188-193: conditional recursive delete, then the three `mkdir`s.
`rmtree` is called with `ignore_errors=True`: a failing delete raises
nothing, which is modelled by `rmOk = false` leaving the tree in place.
`mkdir` is called without `exist_ok`, so it raises `FileExistsError` when
the target exists. -/
def duPrelude (dt : DeviceTreeM) (fs : FSState) (outputPath : FPath) (rmOk : Bool) :
    Except (DumpError × FSState) FSState :=
  let folder := dtFolder dt outputPath
  let fs1 := if isDirB fs folder then (if rmOk then rmtreeFS folder fs else fs) else fs
  if existsB fs1 folder then Except.error (DumpError.mkdirExists folder, fs1)
  else
    let fs2 := mkdirP folder fs1
    let prebuilt := folder ++ ["prebuilt"]
    if existsB fs2 prebuilt then Except.error (DumpError.mkdirExists prebuilt, fs2)
    else
      let fs3 := mkdirP prebuilt fs2
      let recRoot := folder ++ ["recovery", "root"]
      if existsB fs3 recRoot then Except.error (DumpError.mkdirExists recRoot, fs3)
      else Except.ok (mkdirP recRoot fs3)

/-- `DeviceTree.dump_to_folder` (lines 183-229, without the optional git
step): directory preparation followed by the assembly effects.  On failure
the error carries the filesystem state at the moment of failure. -/
def dump_to_folder (dt : DeviceTreeM) (fs : FSState) (outputPath : FPath) (rmOk : Bool) :
    Except (DumpError × FSState) (FSState × FPath) :=
  match duPrelude dt fs outputPath rmOk with
  | Except.error e => Except.error e
  | Except.ok fs4 =>
    match runSteps (dumpSteps dt (dtFolder dt outputPath)) fs4 with
    | Except.error e => Except.error e
    | Except.ok fs5 => Except.ok (fs5, dtFolder dt outputPath)

def isOkE (r : Except (DumpError × FSState) (FSState × FPath)) : Bool :=
  match r with
  | Except.ok _ => true
  | Except.error _ => false

/-- The resulting filesystem state of a successful run (default otherwise). -/
def okStateD (r : Except (DumpError × FSState) (FSState × FPath)) (d : FSState) : FSState :=
  match r with
  | Except.ok x => x.1
  | Except.error _ => d

/-! ### Claim C10 -/

/-- Claim C10: `dump_to_folder` never populates an output directory it did
not create in the same run.  A failure of the recursive delete is silently
ignored (no deletion error is ever raised); when the target directory still
exists after the deletion attempt, the subsequent `mkdir` (which does not
tolerate an existing directory) raises, and the error state equals the
input state: no configuration file was rendered and no artifact copied. -/
theorem dump_requires_fresh_folder (dt : DeviceTreeM) (fs : FSState) (outputPath : FPath)
    (hdir : isDirB fs (dtFolder dt outputPath) = true) :
    dump_to_folder dt fs outputPath false =
      Except.error (DumpError.mkdirExists (dtFolder dt outputPath), fs) := by
  unfold dump_to_folder duPrelude
  simp [hdir, existsB]

def fsC10 : FSState := ⟨[], [["o", "m", "c"]], []⟩

def dt0 : DeviceTreeM := ⟨"m", "c", ⟨none, none, none, none⟩, "fstab-text", [], fun t => t⟩

theorem dump_requires_fresh_folder_witness :
    isDirB fsC10 (dtFolder dt0 ["o"]) = true ∧
    dump_to_folder dt0 fsC10 ["o"] false =
      Except.error (DumpError.mkdirExists (dtFolder dt0 ["o"]), fsC10) :=
  ⟨by decide, dump_requires_fresh_folder dt0 fsC10 ["o"] (by decide)⟩

/-! ### Lemmas about the filesystem operations -/

theorem find?_filter_key_ne {α : Type} (l : List (FPath × α)) (p q : FPath) (hne : q ≠ p) :
    (l.filter (fun e => !decide (e.1 = p))).find? (fun e => decide (e.1 = q)) =
      l.find? (fun e => decide (e.1 = q)) := by
  induction l with
  | nil => rfl
  | cons a l ih =>
    by_cases ha : a.1 = p
    · have hfa : (a :: l).filter (fun e => !decide (e.1 = p)) =
          l.filter (fun e => !decide (e.1 = p)) := by
        simp [List.filter_cons, ha]
      have haq : ¬ (decide (a.1 = q) = true) := by
        simp only [decide_eq_true_eq]
        rw [ha]
        exact fun h => hne h.symm
      rw [hfa, ih, @List.find?_cons_of_neg _ (fun e => decide (e.1 = q)) a l haq]
    · have hfa : (a :: l).filter (fun e => !decide (e.1 = p)) =
          a :: l.filter (fun e => !decide (e.1 = p)) := by
        simp [List.filter_cons, ha]
      rw [hfa]
      by_cases haq : a.1 = q
      · rw [@List.find?_cons_of_pos _ (fun e => decide (e.1 = q)) a _ (by simp [haq]),
          @List.find?_cons_of_pos _ (fun e => decide (e.1 = q)) a _ (by simp [haq])]
      · rw [@List.find?_cons_of_neg _ (fun e => decide (e.1 = q)) a _ (by simp [haq]),
          @List.find?_cons_of_neg _ (fun e => decide (e.1 = q)) a _ (by simp [haq]), ih]

theorem find?_filter_under {α : Type} (l : List (FPath × α)) (d q : FPath) :
    (l.filter (fun e => !decide (d <+: e.1))).find? (fun e => decide (e.1 = q)) =
      (if d <+: q then none else l.find? (fun e => decide (e.1 = q))) := by
  induction l with
  | nil => simp
  | cons a l ih =>
    by_cases hd : d <+: q
    · rw [if_pos hd]
      rw [if_pos hd] at ih
      by_cases ha : d <+: a.1
      · have hfa : (a :: l).filter (fun e => !decide (d <+: e.1)) =
            l.filter (fun e => !decide (d <+: e.1)) := by
          simp [List.filter_cons, ha]
        rw [hfa, ih]
      · have hfa : (a :: l).filter (fun e => !decide (d <+: e.1)) =
            a :: l.filter (fun e => !decide (d <+: e.1)) := by
          simp [List.filter_cons, ha]
        have haq : ¬ (decide (a.1 = q) = true) := by
          simp only [decide_eq_true_eq]
          intro h
          rw [h] at ha
          exact ha hd
        rw [hfa, @List.find?_cons_of_neg _ (fun e => decide (e.1 = q)) a _ haq, ih]
    · rw [if_neg hd]
      rw [if_neg hd] at ih
      by_cases ha : d <+: a.1
      · have hfa : (a :: l).filter (fun e => !decide (d <+: e.1)) =
            l.filter (fun e => !decide (d <+: e.1)) := by
          simp [List.filter_cons, ha]
        have haq : ¬ (decide (a.1 = q) = true) := by
          simp only [decide_eq_true_eq]
          intro h
          rw [h] at ha
          exact hd ha
        rw [hfa, ih, @List.find?_cons_of_neg _ (fun e => decide (e.1 = q)) a l haq]
      · have hfa : (a :: l).filter (fun e => !decide (d <+: e.1)) =
            a :: l.filter (fun e => !decide (d <+: e.1)) := by
          simp [List.filter_cons, ha]
        rw [hfa]
        by_cases haq : a.1 = q
        · rw [@List.find?_cons_of_pos _ (fun e => decide (e.1 = q)) a _ (by simp [haq]),
          @List.find?_cons_of_pos _ (fun e => decide (e.1 = q)) a _ (by simp [haq])]
        · rw [@List.find?_cons_of_neg _ (fun e => decide (e.1 = q)) a _ (by simp [haq]),
          @List.find?_cons_of_neg _ (fun e => decide (e.1 = q)) a _ (by simp [haq]), ih]

theorem lookup_setFile (p : FPath) (c : String) (fs : FSState) (q : FPath) :
    lookupFile (setFile p c fs) q = if q = p then some c else lookupFile fs q := by
  by_cases h : q = p
  · subst h
    have hif : (if q = q then some c else lookupFile fs q) = some c := by simp
    rw [hif]
    simp only [lookupFile, setFile]
    rw [@List.find?_cons_of_pos _ (fun e => decide (e.1 = q)) (q, c) _ (by simp)]
  · simp only [lookupFile, setFile, if_neg h]
    rw [@List.find?_cons_of_neg _ (fun e => decide (e.1 = q)) (p, c) _ (by simp; exact fun hh => h hh.symm)]
    rw [find?_filter_key_ne _ _ _ h]

theorem permsOf_setFile (p : FPath) (c : String) (fs : FSState) (q : FPath) :
    permsOf (setFile p c fs) q = permsOf fs q := rfl

theorem dirs_setFile (p : FPath) (c : String) (fs : FSState) :
    (setFile p c fs).dirs = fs.dirs := rfl

theorem lookup_chmodFS (p : FPath) (m : Nat) (fs : FSState) (q : FPath) :
    lookupFile (chmodFS p m fs) q = lookupFile fs q := rfl

theorem dirs_chmodFS (p : FPath) (m : Nat) (fs : FSState) :
    (chmodFS p m fs).dirs = fs.dirs := rfl

theorem permsOf_chmodFS (p : FPath) (m : Nat) (fs : FSState) (q : FPath) :
    permsOf (chmodFS p m fs) q = if q = p then some m else permsOf fs q := by
  by_cases h : q = p
  · subst h
    have hif : (if q = q then some m else permsOf fs q) = some m := by simp
    rw [hif]
    simp only [permsOf, chmodFS]
    rw [@List.find?_cons_of_pos _ (fun e => decide (e.1 = q)) (q, m) _ (by simp)]
  · simp only [permsOf, chmodFS, if_neg h]
    rw [@List.find?_cons_of_neg _ (fun e => decide (e.1 = q)) (p, m) _ (by simp; exact fun hh => h hh.symm)]
    rw [find?_filter_key_ne _ _ _ h]

theorem lookup_rmtreeFS (d : FPath) (fs : FSState) (q : FPath) :
    lookupFile (rmtreeFS d fs) q = if d <+: q then none else lookupFile fs q := by
  simp only [lookupFile, rmtreeFS]
  rw [find?_filter_under]
  by_cases h : d <+: q
  · simp [h]
  · simp [h]

theorem permsOf_rmtreeFS (d : FPath) (fs : FSState) (q : FPath) :
    permsOf (rmtreeFS d fs) q = if d <+: q then none else permsOf fs q := by
  simp only [permsOf, rmtreeFS]
  rw [find?_filter_under]
  by_cases h : d <+: q
  · simp [h]
  · simp [h]

theorem isDirB_rmtreeFS (d : FPath) (fs : FSState) (q : FPath) :
    isDirB (rmtreeFS d fs) q = (!decide (d <+: q) && isDirB fs q) := by
  simp only [isDirB, rmtreeFS, List.mem_filter]
  by_cases h : d <+: q <;> by_cases hq : q ∈ fs.dirs <;> simp [h, hq]

theorem lookup_mkdirP (p : FPath) (fs : FSState) (q : FPath) :
    lookupFile (mkdirP p fs) q = lookupFile fs q := rfl

theorem permsOf_mkdirP (p : FPath) (fs : FSState) (q : FPath) :
    permsOf (mkdirP p fs) q = permsOf fs q := rfl

theorem isDirB_mkdirP (p : FPath) (fs : FSState) (q : FPath) :
    isDirB (mkdirP p fs) q = (decide (q <+: p) || isDirB fs q) := by
  simp only [isDirB, mkdirP, List.mem_append, List.mem_inits]
  by_cases h : q <+: p <;> by_cases hq : q ∈ fs.dirs <;> simp [h, hq]

/-! ### Path helper lemmas -/

theorem not_append_ne_nil_pref (p : FPath) (l : List String) (hl : l ≠ []) :
    ¬ (p ++ l <+: p) := by
  intro h
  have hle := h.length_le
  rw [List.length_append] at hle
  have : l.length ≠ 0 := fun h0 => hl (List.length_eq_zero.mp h0)
  omega

theorem append_ne_of_not_prefix (p s : FPath) (l : List String)
    (h : ¬ (p <+: s)) : p ++ l ≠ s := by
  intro he
  exact h (he ▸ List.prefix_append p l)

theorem prefix_parentDir_of_ne (p d : FPath) (h : p <+: d) (hne : p ≠ d) :
    p <+: parentDir d := by
  obtain ⟨t, rfl⟩ := h
  cases t with
  | nil => simp at hne
  | cons b t =>
    rw [parentDir, List.dropLast_append_cons]
    exact List.prefix_append p _

/-! ### Well-formedness lemmas -/

theorem WFb_files_spec (fs : FSState) (hwf : WFb fs = true) :
    ∀ e ∈ fs.files, e.1 ≠ [] ∧ parentDir e.1 ∈ fs.dirs := by
  simp only [WFb, Bool.and_eq_true, List.all_eq_true] at hwf
  intro e he
  have := hwf.1.1 e he
  simp only [Bool.and_eq_true, decide_eq_true_eq] at this
  exact this

theorem WFb_dirs_spec (fs : FSState) (hwf : WFb fs = true) :
    ∀ d ∈ fs.dirs, d = [] ∨ parentDir d ∈ fs.dirs := by
  simp only [WFb, Bool.and_eq_true, List.all_eq_true] at hwf
  intro d hd
  have := hwf.1.2 d hd
  simp only [Bool.or_eq_true, decide_eq_true_eq] at this
  exact this

theorem WFb_perms_spec (fs : FSState) (hwf : WFb fs = true) :
    ∀ e ∈ fs.perms, e.1 ∈ fs.files.map Prod.fst := by
  simp only [WFb, Bool.and_eq_true, List.all_eq_true] at hwf
  intro e he
  have := hwf.2 e he
  simpa using this

theorem wf_dirs_ancestor (fs : FSState) (hwf : WFb fs = true) :
    ∀ n (d : FPath), d.length ≤ n → d ∈ fs.dirs → ∀ p, p <+: d → p ∈ fs.dirs := by
  intro n
  induction n with
  | zero =>
    intro d hlen hd p hp
    have hdnil : d = [] := List.length_eq_zero.mp (Nat.le_zero.mp hlen)
    subst hdnil
    have : p = [] := List.prefix_nil.mp hp
    subst this
    exact hd
  | succ n ih =>
    intro d hlen hd p hp
    by_cases hpd : p = d
    · subst hpd; exact hd
    · have hdnil : d ≠ [] := by
        intro h0
        subst h0
        exact hpd (List.prefix_nil.mp hp)
      rcases WFb_dirs_spec fs hwf d hd with h0 | hpar
      · exact absurd h0 hdnil
      · have hlt : (parentDir d).length ≤ n := by
          have := List.length_dropLast d
          have hpos : 0 < d.length := List.length_pos.mpr hdnil
          simp only [parentDir]
          omega
        exact ih (parentDir d) hlt hpar p (prefix_parentDir_of_ne p d hp hpd)

theorem wf_lookup_none (fs : FSState) (hwf : WFb fs = true) (p q : FPath)
    (hd : isDirB fs p = false) (hpq : p <+: q) (hne : q ≠ p) :
    lookupFile fs q = none := by
  cases hlk : lookupFile fs q with
  | none => rfl
  | some c =>
    exfalso
    simp only [lookupFile] at hlk
    cases hfind : fs.files.find? (fun e => decide (e.1 = q)) with
    | none => rw [hfind] at hlk; cases hlk
    | some e =>
      have hmem := List.mem_of_find?_eq_some hfind
      have hkey : e.1 = q := by
        have := List.find?_some hfind
        simpa using this
      obtain ⟨hnil, hpar⟩ := WFb_files_spec fs hwf e hmem
      rw [hkey] at hpar
      have hppar : p <+: parentDir q := prefix_parentDir_of_ne p q hpq (fun h => hne h.symm)
      have hpdirs : p ∈ fs.dirs :=
        wf_dirs_ancestor fs hwf (parentDir q).length (parentDir q) le_rfl hpar p hppar
      simp [isDirB, hpdirs] at hd

theorem wf_permsOf_none (fs : FSState) (hwf : WFb fs = true) (q : FPath)
    (hq : lookupFile fs q = none) : permsOf fs q = none := by
  cases hpm : permsOf fs q with
  | none => rfl
  | some m =>
    exfalso
    simp only [permsOf] at hpm
    cases hfind : fs.perms.find? (fun e => decide (e.1 = q)) with
    | none => rw [hfind] at hpm; cases hpm
    | some e =>
      have hmem := List.mem_of_find?_eq_some hfind
      have hkey : e.1 = q := by
        have := List.find?_some hfind
        simpa using this
      have hfile := WFb_perms_spec fs hwf e hmem
      rw [hkey] at hfile
      simp only [List.mem_map] at hfile
      obtain ⟨f, hf, hff⟩ := hfile
      simp only [lookupFile] at hq
      cases hfind2 : fs.files.find? (fun e => decide (e.1 = q)) with
      | some e2 => rw [hfind2] at hq; cases hq
      | none =>
        have := List.find?_eq_none.mp hfind2 f hf
        simp [hff] at this

/-! ### Lemmas about the assembly step interpreter -/

/-- Two states with the same regular-file contents everywhere. -/
def FilesEq (s₁ s₂ : FSState) : Prop := ∀ q, lookupFile s₁ q = lookupFile s₂ q

/-- The file paths a step actually writes. -/
def stepTargets : Step → List FPath
  | Step.writeConst dst _ => [dst]
  | Step.chmodStep _ _ => []
  | Step.copyStep _ dst => [dst]
  | Step.copyOpt none _ => []
  | Step.copyOpt (some _) dst => [dst]

/-- The paths a step chmods. -/
def stepChmodTargets : Step → List FPath
  | Step.chmodStep dst _ => [dst]
  | _ => []

theorem runSteps_append (l₁ l₂ : List Step) (fs : FSState) :
    runSteps (l₁ ++ l₂) fs =
      match runSteps l₁ fs with
      | Except.error e => Except.error e
      | Except.ok s => runSteps l₂ s := by
  induction l₁ generalizing fs with
  | nil => rfl
  | cons st rest ih =>
    simp only [List.cons_append, runSteps]
    cases runStep st fs with
    | error e => rfl
    | ok s => exact ih s

theorem runSteps_copyOpt_some (src dst : FPath) (post : List Step) (fs : FSState) :
    runSteps (Step.copyOpt (some src) dst :: post) fs =
      runSteps (Step.copyStep src dst :: post) fs := by
  simp only [runSteps, runStep]

theorem runSteps_copyOpt_none (dst : FPath) (post : List Step) (fs : FSState) :
    runSteps (Step.copyOpt none dst :: post) fs = runSteps post fs := by
  simp only [runSteps, runStep]

theorem runStep_preserve (st : Step) (fs s : FSState) (q : FPath)
    (h : runStep st fs = Except.ok s) (hq : ∀ d ∈ stepTargets st, d ≠ q) :
    lookupFile s q = lookupFile fs q := by
  cases st with
  | writeConst dst c =>
    have hd : dst ≠ q := hq dst (by simp [stepTargets])
    simp only [runStep] at h
    cases h
    rw [lookup_setFile, if_neg (fun he => hd he.symm)]
  | chmodStep dst m =>
    simp only [runStep] at h
    cases h
    rw [lookup_chmodFS]
  | copyStep src dst =>
    have hd : dst ≠ q := hq dst (by simp [stepTargets])
    simp only [runStep] at h
    cases hlk : lookupFile fs src with
    | none => rw [hlk] at h; cases h
    | some c =>
      rw [hlk] at h
      cases h
      rw [lookup_setFile, if_neg (fun he => hd he.symm)]
  | copyOpt osrc dst =>
    cases osrc with
    | none => simp only [runStep] at h; cases h; rfl
    | some src =>
      have hd : dst ≠ q := hq dst (by simp [stepTargets])
      simp only [runStep] at h
      cases hlk : lookupFile fs src with
      | none => rw [hlk] at h; cases h
      | some c =>
        rw [hlk] at h
        cases h
        rw [lookup_setFile, if_neg (fun he => hd he.symm)]

theorem runSteps_preserve (steps : List Step) (fs fs' : FSState) (q : FPath)
    (h : runSteps steps fs = Except.ok fs')
    (hq : ∀ st ∈ steps, ∀ d ∈ stepTargets st, d ≠ q) :
    lookupFile fs' q = lookupFile fs q := by
  induction steps generalizing fs with
  | nil => simp only [runSteps] at h; cases h; rfl
  | cons st rest ih =>
    simp only [runSteps] at h
    cases hst : runStep st fs with
    | error e => rw [hst] at h; cases h
    | ok s =>
      rw [hst] at h
      have h1 := runStep_preserve st fs s q hst (hq st (by simp))
      have h2 := ih s h (fun st2 hst2 => hq st2 (by simp [hst2]))
      rw [h2, h1]

theorem runStep_dirs (st : Step) (fs s : FSState) (h : runStep st fs = Except.ok s) :
    s.dirs = fs.dirs := by
  cases st with
  | writeConst dst c => simp only [runStep] at h; cases h; rfl
  | chmodStep dst m => simp only [runStep] at h; cases h; rfl
  | copyStep src dst =>
    simp only [runStep] at h
    cases hlk : lookupFile fs src with
    | none => rw [hlk] at h; cases h
    | some c => rw [hlk] at h; cases h; rfl
  | copyOpt osrc dst =>
    cases osrc with
    | none => simp only [runStep] at h; cases h; rfl
    | some src =>
      simp only [runStep] at h
      cases hlk : lookupFile fs src with
      | none => rw [hlk] at h; cases h
      | some c => rw [hlk] at h; cases h; rfl

theorem runSteps_dirs (steps : List Step) (fs fs' : FSState)
    (h : runSteps steps fs = Except.ok fs') : fs'.dirs = fs.dirs := by
  induction steps generalizing fs with
  | nil => simp only [runSteps] at h; cases h; rfl
  | cons st rest ih =>
    simp only [runSteps] at h
    cases hst : runStep st fs with
    | error e => rw [hst] at h; cases h
    | ok s =>
      rw [hst] at h
      rw [ih s h, runStep_dirs st fs s hst]

theorem runStep_perms_preserve (st : Step) (fs s : FSState) (q : FPath)
    (h : runStep st fs = Except.ok s) (hq : ∀ d ∈ stepChmodTargets st, d ≠ q) :
    permsOf s q = permsOf fs q := by
  cases st with
  | writeConst dst c => simp only [runStep] at h; cases h; rw [permsOf_setFile]
  | chmodStep dst m =>
    have hd : dst ≠ q := hq dst (by simp [stepChmodTargets])
    simp only [runStep] at h
    cases h
    rw [permsOf_chmodFS, if_neg (fun he => hd he.symm)]
  | copyStep src dst =>
    simp only [runStep] at h
    cases hlk : lookupFile fs src with
    | none => rw [hlk] at h; cases h
    | some c => rw [hlk] at h; cases h; rw [permsOf_setFile]
  | copyOpt osrc dst =>
    cases osrc with
    | none => simp only [runStep] at h; cases h; rfl
    | some src =>
      simp only [runStep] at h
      cases hlk : lookupFile fs src with
      | none => rw [hlk] at h; cases h
      | some c => rw [hlk] at h; cases h; rw [permsOf_setFile]

theorem runSteps_perms_preserve (steps : List Step) (fs fs' : FSState) (q : FPath)
    (h : runSteps steps fs = Except.ok fs')
    (hq : ∀ st ∈ steps, ∀ d ∈ stepChmodTargets st, d ≠ q) :
    permsOf fs' q = permsOf fs q := by
  induction steps generalizing fs with
  | nil => simp only [runSteps] at h; cases h; rfl
  | cons st rest ih =>
    simp only [runSteps] at h
    cases hst : runStep st fs with
    | error e => rw [hst] at h; cases h
    | ok s =>
      rw [hst] at h
      have h1 := runStep_perms_preserve st fs s q hst (hq st (by simp))
      have h2 := ih s h (fun st2 hst2 => hq st2 (by simp [hst2]))
      rw [h2, h1]

theorem runStep_congr (st : Step) (s₁ s₂ r₁ : FSState) (heq : FilesEq s₁ s₂)
    (h : runStep st s₁ = Except.ok r₁) :
    ∃ r₂, runStep st s₂ = Except.ok r₂ ∧ FilesEq r₁ r₂ := by
  cases st with
  | writeConst dst c =>
    simp only [runStep] at h ⊢
    cases h
    refine ⟨setFile dst c s₂, rfl, fun q => ?_⟩
    rw [lookup_setFile, lookup_setFile]
    by_cases hq : q = dst
    · simp [hq]
    · simp only [if_neg hq]
      exact heq q
  | chmodStep dst m =>
    simp only [runStep] at h ⊢
    cases h
    exact ⟨chmodFS dst m s₂, rfl, fun q => by rw [lookup_chmodFS, lookup_chmodFS]; exact heq q⟩
  | copyStep src dst =>
    simp only [runStep] at h ⊢
    cases hlk : lookupFile s₁ src with
    | none => rw [hlk] at h; cases h
    | some c =>
      rw [hlk] at h
      cases h
      have hlk2 : lookupFile s₂ src = some c := (heq src).symm.trans hlk
      rw [hlk2]
      refine ⟨setFile dst c s₂, rfl, fun q => ?_⟩
      rw [lookup_setFile, lookup_setFile]
      by_cases hq : q = dst
      · simp [hq]
      · simp only [if_neg hq]
        exact heq q
  | copyOpt osrc dst =>
    cases osrc with
    | none =>
      simp only [runStep] at h ⊢
      cases h
      exact ⟨s₂, rfl, heq⟩
    | some src =>
      simp only [runStep] at h ⊢
      cases hlk : lookupFile s₁ src with
      | none => rw [hlk] at h; cases h
      | some c =>
        rw [hlk] at h
        cases h
        have hlk2 : lookupFile s₂ src = some c := (heq src).symm.trans hlk
        rw [hlk2]
        refine ⟨setFile dst c s₂, rfl, fun q => ?_⟩
        rw [lookup_setFile, lookup_setFile]
        by_cases hq : q = dst
        · simp [hq]
        · simp only [if_neg hq]
          exact heq q

theorem runSteps_congr (steps : List Step) (s₁ s₂ r₁ : FSState) (heq : FilesEq s₁ s₂)
    (h : runSteps steps s₁ = Except.ok r₁) :
    ∃ r₂, runSteps steps s₂ = Except.ok r₂ ∧ FilesEq r₁ r₂ := by
  induction steps generalizing s₁ s₂ with
  | nil =>
    simp only [runSteps] at h
    cases h
    exact ⟨s₂, rfl, heq⟩
  | cons st rest ih =>
    simp only [runSteps] at h ⊢
    cases hst : runStep st s₁ with
    | error e => rw [hst] at h; cases h
    | ok m₁ =>
      rw [hst] at h
      obtain ⟨m₂, hst2, heq2⟩ := runStep_congr st s₁ s₂ m₁ heq hst
      rw [hst2]
      exact ih m₁ m₂ heq2 h

theorem runStep_new_file (st : Step) (fs s : FSState) (q : FPath)
    (h : runStep st fs = Except.ok s) (hne : lookupFile s q ≠ none) :
    lookupFile fs q ≠ none ∨ q ∈ stepTargets st := by
  by_cases hq : q ∈ stepTargets st
  · exact Or.inr hq
  · left
    have : ∀ d ∈ stepTargets st, d ≠ q := fun d hd he => hq (he ▸ hd)
    rw [← runStep_preserve st fs s q h this]
    exact hne

theorem runSteps_new_file (steps : List Step) (fs fs' : FSState) (q : FPath)
    (h : runSteps steps fs = Except.ok fs') (hne : lookupFile fs' q ≠ none) :
    lookupFile fs q ≠ none ∨ ∃ st ∈ steps, q ∈ stepTargets st := by
  induction steps generalizing fs with
  | nil => simp only [runSteps] at h; cases h; exact Or.inl hne
  | cons st rest ih =>
    simp only [runSteps] at h
    cases hst : runStep st fs with
    | error e => rw [hst] at h; cases h
    | ok s =>
      rw [hst] at h
      rcases ih s h with hcase | ⟨st2, hst2, hq2⟩
      · rcases runStep_new_file st fs s q hst hcase with h1 | h1
        · exact Or.inl h1
        · exact Or.inr ⟨st, by simp, h1⟩
      · exact Or.inr ⟨st2, by simp [hst2], hq2⟩

theorem runSteps_copy_focus (pre post : List Step) (src dst : FPath) (fs fs' : FSState)
    (h : runSteps (pre ++ Step.copyStep src dst :: post) fs = Except.ok fs')
    (hpre : ∀ st ∈ pre, ∀ d ∈ stepTargets st, d ≠ src)
    (hpost : ∀ st ∈ post, ∀ d ∈ stepTargets st, d ≠ dst) :
    lookupFile fs' dst = lookupFile fs src := by
  rw [runSteps_append] at h
  cases hp : runSteps pre fs with
  | error e => rw [hp] at h; cases h
  | ok s₁ =>
    rw [hp] at h
    simp only [runSteps, runStep] at h
    have hs₁ : lookupFile s₁ src = lookupFile fs src := runSteps_preserve pre fs s₁ src hp hpre
    cases hlk : lookupFile s₁ src with
    | none => rw [hlk] at h; cases h
    | some c =>
      rw [hlk] at h
      have hpp := runSteps_preserve post (setFile dst c s₁) fs' dst h hpost
      rw [hpp, lookup_setFile, if_pos rfl, ← hs₁, hlk]

/-! ### Lemmas about the directory-preparation prelude -/

theorem duPrelude_ok_shape (dt : DeviceTreeM) (fs : FSState) (out : FPath) (rmOk : Bool)
    (fs4 : FSState) (h : duPrelude dt fs out rmOk = Except.ok fs4) :
    ∃ fs1, ((isDirB fs (dtFolder dt out) = true ∧ rmOk = true ∧
              fs1 = rmtreeFS (dtFolder dt out) fs) ∨
            (isDirB fs (dtFolder dt out) = false ∧ fs1 = fs)) ∧
      existsB fs1 (dtFolder dt out) = false ∧
      fs4 = mkdirP (dtFolder dt out ++ ["recovery", "root"])
        (mkdirP (dtFolder dt out ++ ["prebuilt"]) (mkdirP (dtFolder dt out) fs1)) := by
  simp only [duPrelude] at h
  cases hdir : isDirB fs (dtFolder dt out) with
  | true =>
    rw [hdir] at h
    cases rmOk with
    | false =>
      exfalso
      have hex : existsB fs (dtFolder dt out) = true := by
        simp [existsB, hdir]
      simp [hex] at h
    | true =>
      simp only [if_true] at h
      cases hex : existsB (rmtreeFS (dtFolder dt out) fs) (dtFolder dt out) with
      | true => rw [hex] at h; simp at h
      | false =>
        rw [hex] at h
        simp only [Bool.false_eq_true, if_false] at h
        refine ⟨rmtreeFS (dtFolder dt out) fs, Or.inl ⟨rfl, rfl, rfl⟩, hex, ?_⟩
        cases hex2 : existsB (mkdirP (dtFolder dt out) (rmtreeFS (dtFolder dt out) fs))
            (dtFolder dt out ++ ["prebuilt"]) with
        | true => rw [hex2] at h; simp at h
        | false =>
          rw [hex2] at h
          simp only [Bool.false_eq_true, if_false] at h
          cases hex3 : existsB (mkdirP (dtFolder dt out ++ ["prebuilt"])
              (mkdirP (dtFolder dt out) (rmtreeFS (dtFolder dt out) fs)))
              (dtFolder dt out ++ ["recovery", "root"]) with
          | true => rw [hex3] at h; simp at h
          | false =>
            rw [hex3] at h
            simp only [Bool.false_eq_true, if_false, Except.ok.injEq] at h
            rw [h]
  | false =>
    rw [hdir] at h
    simp only [Bool.false_eq_true, if_false] at h
    cases hex : existsB fs (dtFolder dt out) with
    | true => rw [hex] at h; simp at h
    | false =>
      rw [hex] at h
      simp only [Bool.false_eq_true, if_false] at h
      refine ⟨fs, Or.inr ⟨rfl, rfl⟩, hex, ?_⟩
      cases hex2 : existsB (mkdirP (dtFolder dt out) fs) (dtFolder dt out ++ ["prebuilt"]) with
      | true => rw [hex2] at h; simp at h
      | false =>
        rw [hex2] at h
        simp only [Bool.false_eq_true, if_false] at h
        cases hex3 : existsB (mkdirP (dtFolder dt out ++ ["prebuilt"])
            (mkdirP (dtFolder dt out) fs)) (dtFolder dt out ++ ["recovery", "root"]) with
        | true => rw [hex3] at h; simp at h
        | false =>
          rw [hex3] at h
          simp only [Bool.false_eq_true, if_false, Except.ok.injEq] at h
          rw [h]

theorem duPrelude_under_none (dt : DeviceTreeM) (fs : FSState) (out : FPath) (rmOk : Bool)
    (fs4 : FSState) (hwf : WFb fs = true) (h : duPrelude dt fs out rmOk = Except.ok fs4)
    (q : FPath) (hq : dtFolder dt out <+: q) :
    lookupFile fs4 q = none ∧ permsOf fs4 q = none := by
  obtain ⟨fs1, hcase, hex, hfs4⟩ := duPrelude_ok_shape dt fs out rmOk fs4 h
  rw [hfs4, lookup_mkdirP, lookup_mkdirP, lookup_mkdirP,
    permsOf_mkdirP, permsOf_mkdirP, permsOf_mkdirP]
  rcases hcase with ⟨hdir, hrm, hfs1⟩ | ⟨hdir, hfs1⟩
  · rw [hfs1, lookup_rmtreeFS, if_pos hq, permsOf_rmtreeFS, if_pos hq]
    exact ⟨rfl, rfl⟩
  · rw [hfs1]
    rw [hfs1] at hex
    by_cases hqf : q = dtFolder dt out
    · have hfile : lookupFile fs q = none := by
        cases hl : lookupFile fs q with
        | none => rfl
        | some c =>
          exfalso
          have hf : isFileB fs q = true := by simp [isFileB, hl]
          rw [hqf] at hf
          simp [existsB, hf] at hex
      exact ⟨hfile, wf_permsOf_none fs hwf q hfile⟩
    · have hfile := wf_lookup_none fs hwf (dtFolder dt out) q hdir hq hqf
      exact ⟨hfile, wf_permsOf_none fs hwf q hfile⟩

theorem duPrelude_outside_eq (dt : DeviceTreeM) (fs : FSState) (out : FPath) (rmOk : Bool)
    (fs4 : FSState) (h : duPrelude dt fs out rmOk = Except.ok fs4)
    (q : FPath) (hq : ¬ (dtFolder dt out <+: q)) :
    lookupFile fs4 q = lookupFile fs q ∧ permsOf fs4 q = permsOf fs q := by
  obtain ⟨fs1, hcase, hex, hfs4⟩ := duPrelude_ok_shape dt fs out rmOk fs4 h
  rw [hfs4, lookup_mkdirP, lookup_mkdirP, lookup_mkdirP,
    permsOf_mkdirP, permsOf_mkdirP, permsOf_mkdirP]
  rcases hcase with ⟨hdir, hrm, hfs1⟩ | ⟨hdir, hfs1⟩
  · rw [hfs1, lookup_rmtreeFS, if_neg hq, permsOf_rmtreeFS, if_neg hq]
    exact ⟨rfl, rfl⟩
  · rw [hfs1]
    exact ⟨rfl, rfl⟩

theorem duPrelude_isDir_folder (dt : DeviceTreeM) (fs : FSState) (out : FPath) (rmOk : Bool)
    (fs4 : FSState) (h : duPrelude dt fs out rmOk = Except.ok fs4) :
    isDirB fs4 (dtFolder dt out) = true := by
  obtain ⟨fs1, hcase, hex, hfs4⟩ := duPrelude_ok_shape dt fs out rmOk fs4 h
  rw [hfs4, isDirB_mkdirP]
  have hpre : decide (dtFolder dt out <+: dtFolder dt out ++ ["recovery", "root"]) = true := by
    simp [List.prefix_append]
  rw [hpre]
  rfl

/-! ### Shape of the assembly step list -/

theorem append_ne_append (folder : FPath) (a b : List String) (h : a ≠ b) :
    folder ++ a ≠ folder ++ b := fun he => h (List.append_cancel_left he)

theorem renderSteps_target_shape (dt : DeviceTreeM) (folder : FPath) :
    ∀ st ∈ renderSteps dt folder, ∀ d ∈ stepTargets st, ∃ nm : String, d = folder ++ [nm] := by
  intro st hst d hd
  simp only [renderSteps, List.mem_map] at hst
  obtain ⟨e, he, hste⟩ := hst
  rw [← hste] at hd
  simp only [stepTargets, List.mem_singleton] at hd
  exact ⟨e.2, hd⟩

theorem chmodSteps_target_nil (folder : FPath) :
    ∀ st ∈ chmodSteps folder, stepTargets st = [] := by
  intro st hst
  simp only [chmodSteps, List.mem_cons, List.mem_singleton] at hst
  rcases hst with h | h | h
  · rw [h]; rfl
  · rw [h]; rfl
  · cases h

theorem artifactSteps_target_shape (dt : DeviceTreeM) (folder : FPath) :
    ∀ st ∈ artifactSteps dt folder, ∀ d ∈ stepTargets st,
      d = folder ++ ["prebuilt", "kernel"] ∨ d = folder ++ ["prebuilt", "dt.img"] ∨
      d = folder ++ ["prebuilt", "dtb.img"] ∨ d = folder ++ ["prebuilt", "dtbo.img"] := by
  intro st hst d hd
  simp only [artifactSteps, List.mem_cons, List.mem_singleton] at hst
  rcases hst with h | h | h | h | h
  · rw [h] at hd
    cases hk : dt.imageInfo.kernel with
    | none => rw [hk] at hd; cases hd
    | some s =>
      rw [hk] at hd
      simp only [stepTargets, List.mem_singleton] at hd
      exact Or.inl hd
  · rw [h] at hd
    cases hk : dt.imageInfo.dt with
    | none => rw [hk] at hd; cases hd
    | some s =>
      rw [hk] at hd
      simp only [stepTargets, List.mem_singleton] at hd
      exact Or.inr (Or.inl hd)
  · rw [h] at hd
    cases hk : dt.imageInfo.dtb with
    | none => rw [hk] at hd; cases hd
    | some s =>
      rw [hk] at hd
      simp only [stepTargets, List.mem_singleton] at hd
      exact Or.inr (Or.inr (Or.inl hd))
  · rw [h] at hd
    cases hk : dt.imageInfo.dtbo with
    | none => rw [hk] at hd; cases hd
    | some s =>
      rw [hk] at hd
      simp only [stepTargets, List.mem_singleton] at hd
      exact Or.inr (Or.inr (Or.inr hd))
  · cases h

theorem fstabSteps_target_shape (dt : DeviceTreeM) (folder : FPath) :
    ∀ st ∈ fstabSteps dt folder, ∀ d ∈ stepTargets st, d = folder ++ ["recovery.fstab"] := by
  intro st hst d hd
  simp only [fstabSteps, List.mem_singleton] at hst
  rw [hst] at hd
  simp only [stepTargets, List.mem_singleton] at hd
  exact hd

theorem rcSteps_map_target_shape (folder : FPath) (l : List FPath) :
    ∀ st ∈ l.map (fun r => Step.copyStep r (folder ++ ["recovery", "root", lastName r])),
      ∀ d ∈ stepTargets st, ∃ r ∈ l, d = folder ++ ["recovery", "root", lastName r] := by
  intro st hst d hd
  simp only [List.mem_map] at hst
  obtain ⟨r, hr, hste⟩ := hst
  rw [← hste] at hd
  simp only [stepTargets, List.mem_singleton] at hd
  exact ⟨r, hr, hd⟩

theorem rcSteps_eq_map (dt : DeviceTreeM) (folder : FPath) :
    rcSteps dt folder =
      dt.initRcs.map (fun r => Step.copyStep r (folder ++ ["recovery", "root", lastName r])) := rfl

theorem dumpSteps_targets_extend (dt : DeviceTreeM) (folder : FPath) :
    ∀ st ∈ dumpSteps dt folder, ∀ d ∈ stepTargets st, ∃ r, r ≠ [] ∧ d = folder ++ r := by
  intro st hst d hd
  simp only [dumpSteps, List.mem_append] at hst
  rcases hst with ((((hst | hst) | hst) | hst) | hst)
  · obtain ⟨nm, hnm⟩ := renderSteps_target_shape dt folder st hst d hd
    exact ⟨[nm], by simp, hnm⟩
  · rw [chmodSteps_target_nil folder st hst] at hd
    cases hd
  · rcases artifactSteps_target_shape dt folder st hst d hd with h | h | h | h
    · exact ⟨["prebuilt", "kernel"], by simp, h⟩
    · exact ⟨["prebuilt", "dt.img"], by simp, h⟩
    · exact ⟨["prebuilt", "dtb.img"], by simp, h⟩
    · exact ⟨["prebuilt", "dtbo.img"], by simp, h⟩
  · exact ⟨["recovery.fstab"], by simp, fstabSteps_target_shape dt folder st hst d hd⟩
  · obtain ⟨r, hr, hdr⟩ := rcSteps_map_target_shape folder dt.initRcs st hst d hd
    exact ⟨["recovery", "root", lastName r], by simp, hdr⟩

theorem dumpSteps_targets_ne_outside (dt : DeviceTreeM) (folder q : FPath)
    (hq : ¬ (folder <+: q)) :
    ∀ st ∈ dumpSteps dt folder, ∀ d ∈ stepTargets st, d ≠ q := by
  intro st hst d hd he
  obtain ⟨r, hr, hdr⟩ := dumpSteps_targets_extend dt folder st hst d hd
  apply hq
  rw [← he, hdr]
  exact List.prefix_append folder r

theorem dumpSteps_chmod_targets (dt : DeviceTreeM) (folder : FPath) :
    ∀ st ∈ dumpSteps dt folder, ∀ d ∈ stepChmodTargets st,
      d = folder ++ ["extract-files.sh"] ∨ d = folder ++ ["setup-makefiles.sh"] := by
  intro st hst d hd
  simp only [dumpSteps, List.mem_append] at hst
  rcases hst with ((((hst | hst) | hst) | hst) | hst)
  · simp only [renderSteps, List.mem_map] at hst
    obtain ⟨e, he, hste⟩ := hst
    rw [← hste] at hd
    cases hd
  · simp only [chmodSteps, List.mem_cons, List.mem_singleton] at hst
    rcases hst with h | h | h
    · rw [h] at hd
      simp only [stepChmodTargets, List.mem_singleton] at hd
      exact Or.inl hd
    · rw [h] at hd
      simp only [stepChmodTargets, List.mem_singleton] at hd
      exact Or.inr hd
    · cases h
  · simp only [artifactSteps, List.mem_cons, List.mem_singleton] at hst
    rcases hst with h | h | h | h | h
    · rw [h] at hd; simp [stepChmodTargets] at hd
    · rw [h] at hd; simp [stepChmodTargets] at hd
    · rw [h] at hd; simp [stepChmodTargets] at hd
    · rw [h] at hd; simp [stepChmodTargets] at hd
    · cases h
  · simp only [fstabSteps, List.mem_singleton] at hst
    rw [hst] at hd
    cases hd
  · simp only [List.mem_map, rcSteps] at hst
    obtain ⟨r, hr, hste⟩ := hst
    rw [← hste] at hd
    cases hd

/-! ### Inversion of a successful dump and the rerun prelude -/

theorem dump_ok_inv (dt : DeviceTreeM) (fs : FSState) (out : FPath) (rmOk : Bool)
    (fs5 : FSState) (fp : FPath)
    (h : dump_to_folder dt fs out rmOk = Except.ok (fs5, fp)) :
    fp = dtFolder dt out ∧ ∃ fs4, duPrelude dt fs out rmOk = Except.ok fs4 ∧
      runSteps (dumpSteps dt (dtFolder dt out)) fs4 = Except.ok fs5 := by
  unfold dump_to_folder at h
  cases hpre : duPrelude dt fs out rmOk with
  | error e => rw [hpre] at h; cases h
  | ok fs4 =>
    rw [hpre] at h
    dsimp only [] at h
    cases hrun : runSteps (dumpSteps dt (dtFolder dt out)) fs4 with
    | error e => rw [hrun] at h; cases h
    | ok fs5x =>
      rw [hrun] at h
      simp only [Except.ok.injEq, Prod.mk.injEq] at h
      exact ⟨h.2.symm, fs4, rfl, h.1 ▸ hrun⟩

theorem duPrelude_after_dir (dt : DeviceTreeM) (fs : FSState) (out : FPath)
    (hdir : isDirB fs (dtFolder dt out) = true) :
    duPrelude dt fs out true = Except.ok
      (mkdirP (dtFolder dt out ++ ["recovery", "root"])
        (mkdirP (dtFolder dt out ++ ["prebuilt"])
          (mkdirP (dtFolder dt out) (rmtreeFS (dtFolder dt out) fs)))) := by
  have hex1 : existsB (rmtreeFS (dtFolder dt out) fs) (dtFolder dt out) = false := by
    have h1 : lookupFile (rmtreeFS (dtFolder dt out) fs) (dtFolder dt out) = none := by
      rw [lookup_rmtreeFS, if_pos (List.prefix_refl _)]
    simp [existsB, isFileB, h1, isDirB_rmtreeFS, List.prefix_refl]
  have hex2 : existsB (mkdirP (dtFolder dt out) (rmtreeFS (dtFolder dt out) fs))
      (dtFolder dt out ++ ["prebuilt"]) = false := by
    have h1 : lookupFile (rmtreeFS (dtFolder dt out) fs) (dtFolder dt out ++ ["prebuilt"]) =
        none := by
      rw [lookup_rmtreeFS, if_pos (List.prefix_append _ _)]
    have h2 : ¬ ((dtFolder dt out ++ ["prebuilt"]) <+: dtFolder dt out) :=
      not_append_ne_nil_pref _ _ (by simp)
    simp [existsB, isFileB, lookup_mkdirP, h1, isDirB_mkdirP, h2, isDirB_rmtreeFS,
      List.prefix_append]
  have hex3 : existsB (mkdirP (dtFolder dt out ++ ["prebuilt"])
      (mkdirP (dtFolder dt out) (rmtreeFS (dtFolder dt out) fs)))
      (dtFolder dt out ++ ["recovery", "root"]) = false := by
    have h1 : lookupFile (rmtreeFS (dtFolder dt out) fs)
        (dtFolder dt out ++ ["recovery", "root"]) = none := by
      rw [lookup_rmtreeFS, if_pos (List.prefix_append _ _)]
    have h2 : ¬ ((dtFolder dt out ++ ["recovery", "root"]) <+:
        dtFolder dt out ++ ["prebuilt"]) := by
      rw [List.prefix_append_right_inj]
      decide
    have h3 : ¬ ((dtFolder dt out ++ ["recovery", "root"]) <+: dtFolder dt out) :=
      not_append_ne_nil_pref _ _ (by simp)
    simp [existsB, isFileB, lookup_mkdirP, h1, isDirB_mkdirP, h2, h3, isDirB_rmtreeFS,
      List.prefix_append]
  simp only [duPrelude, hdir, if_true, hex1, hex2, hex3]
  simp

/-! ### Claim C2 -/

/-- Claim C2: when the target directory `<output>/<manufacturer>/<codename>`
already exists, `dump_to_folder` first deletes it recursively and recreates
it from scratch, so a second run against the same image succeeds and
produces a file tree identical to the first run's (every path holds the
same content), and no file under the target directory survives other than
the assembly's own write targets — a destructive overwrite, never a
merge. -/
theorem dump_rerun_byte_identical (dt : DeviceTreeM) (fs : FSState) (out : FPath)
    (fs5 : FSState) (fp : FPath) (hwf : WFb fs = true)
    (h1 : dump_to_folder dt fs out true = Except.ok (fs5, fp)) :
    ∃ fs5', dump_to_folder dt fs5 out true = Except.ok (fs5', fp) ∧
      (∀ q, lookupFile fs5' q = lookupFile fs5 q) ∧
      (∀ q, fp <+: q → lookupFile fs5' q ≠ none →
        ∃ st ∈ dumpSteps dt fp, q ∈ stepTargets st) := by
  obtain ⟨hfp, fs4, hpre, hrun⟩ := dump_ok_inv dt fs out true fs5 fp h1
  subst hfp
  have hdir5 : isDirB fs5 (dtFolder dt out) = true := by
    have hd4 := duPrelude_isDir_folder dt fs out true fs4 hpre
    have hds : fs5.dirs = fs4.dirs := runSteps_dirs _ fs4 fs5 hrun
    rw [isDirB, hds]
    exact hd4
  have hBdef : ∃ B, duPrelude dt fs5 out true = Except.ok B ∧
      (∀ q, dtFolder dt out <+: q → lookupFile B q = none) ∧
      (∀ q, ¬ (dtFolder dt out <+: q) → lookupFile B q = lookupFile fs5 q) := by
    refine ⟨_, duPrelude_after_dir dt fs5 out hdir5, ?_, ?_⟩
    · intro q hq
      simp only [lookup_mkdirP, lookup_rmtreeFS]
      rw [if_pos hq]
    · intro q hq
      simp only [lookup_mkdirP, lookup_rmtreeFS]
      rw [if_neg hq]
  obtain ⟨B, hpre2, hBunder, hBout⟩ := hBdef
  have hfeq : FilesEq fs4 B := by
    intro q
    by_cases hq : dtFolder dt out <+: q
    · rw [(duPrelude_under_none dt fs out true fs4 hwf hpre q hq).1, hBunder q hq]
    · have h1o := (duPrelude_outside_eq dt fs out true fs4 hpre q hq).1
      have h5o : lookupFile fs5 q = lookupFile fs4 q :=
        runSteps_preserve _ fs4 fs5 q hrun (dumpSteps_targets_ne_outside dt _ q hq)
      rw [hBout q hq, h5o]
  obtain ⟨r₂, hrun2, hfeq2⟩ := runSteps_congr (dumpSteps dt (dtFolder dt out)) fs4 B fs5 hfeq hrun
  refine ⟨r₂, ?_, fun q => (hfeq2 q).symm, ?_⟩
  · unfold dump_to_folder
    rw [hpre2]
    dsimp only []
    rw [hrun2]
  · intro q hq hne
    rcases runSteps_new_file _ B r₂ q hrun2 hne with hc | hc
    · exact absurd (hBunder q hq) hc
    · exact hc

theorem dump_rerun_byte_identical_witness :
    WFb fsEmpty = true ∧
    dump_to_folder dt0 fsEmpty [] true =
      Except.ok (okStateD (dump_to_folder dt0 fsEmpty [] true) fsEmpty, dtFolder dt0 []) ∧
    (∃ fs5', dump_to_folder dt0 (okStateD (dump_to_folder dt0 fsEmpty [] true) fsEmpty) [] true =
        Except.ok (fs5', dtFolder dt0 []) ∧
      (∀ q, lookupFile fs5' q =
        lookupFile (okStateD (dump_to_folder dt0 fsEmpty [] true) fsEmpty) q) ∧
      (∀ q, dtFolder dt0 [] <+: q → lookupFile fs5' q ≠ none →
        ∃ st ∈ dumpSteps dt0 (dtFolder dt0 []), q ∈ stepTargets st)) :=
  ⟨by decide, by decide,
   dump_rerun_byte_identical dt0 fsEmpty [] _ _ (by decide) (by decide)⟩

/-! ### Claim C6 -/

theorem dumpSteps_decomp_chmod (dt : DeviceTreeM) (folder : FPath) :
    dumpSteps dt folder = renderSteps dt folder ++
      (Step.chmodStep (folder ++ ["extract-files.sh"]) scriptMode ::
       Step.chmodStep (folder ++ ["setup-makefiles.sh"]) scriptMode ::
       (artifactSteps dt folder ++ (fstabSteps dt folder ++ rcSteps dt folder))) := by
  simp [dumpSteps, chmodSteps, List.append_assoc]

theorem tailSteps_chmod_nil (dt : DeviceTreeM) (folder : FPath) :
    ∀ st ∈ artifactSteps dt folder ++ (fstabSteps dt folder ++ rcSteps dt folder),
      stepChmodTargets st = [] := by
  intro st hst
  simp only [List.mem_append] at hst
  rcases hst with hst | hst | hst
  · simp only [artifactSteps, List.mem_cons, List.mem_singleton] at hst
    rcases hst with h | h | h | h | h
    · rw [h]; simp [stepChmodTargets]
    · rw [h]; simp [stepChmodTargets]
    · rw [h]; simp [stepChmodTargets]
    · rw [h]; simp [stepChmodTargets]
    · cases h
  · simp only [fstabSteps, List.mem_singleton] at hst
    rw [hst]
    rfl
  · simp only [rcSteps, List.mem_map] at hst
    obtain ⟨r, hr, hste⟩ := hst
    rw [← hste]
    rfl

theorem runSteps_chmod_cons (dst : FPath) (m : Nat) (rest : List Step) (fs : FSState) :
    runSteps (Step.chmodStep dst m :: rest) fs = runSteps rest (chmodFS dst m fs) := by
  simp only [runSteps, runStep]

theorem renderSteps_chmod_nil (dt : DeviceTreeM) (folder : FPath) :
    ∀ st ∈ renderSteps dt folder, stepChmodTargets st = [] := by
  intro st hst
  simp only [renderSteps, List.mem_map] at hst
  obtain ⟨e, he, hste⟩ := hst
  rw [← hste]
  rfl

/-- Claim C6 amended: after assembly the two generated shell scripts
`extract-files.sh` and `setup-makefiles.sh` each carry the explicitly-set
mode `S_IRWXU ||| S_IRGRP ||| S_IROTH` = 0o744 (owner read/write/execute,
group and other read) — not 0750 — and they are the only paths whose
permissions the assembler sets: every other path keeps its pre-run mode
(cleared when it was below the recreated target directory). -/
theorem generated_scripts_chmod (dt : DeviceTreeM) (fs : FSState) (out : FPath) (rmOk : Bool)
    (fs5 : FSState) (fp : FPath) (hwf : WFb fs = true)
    (h : dump_to_folder dt fs out rmOk = Except.ok (fs5, fp)) :
    permsOf fs5 (fp ++ ["extract-files.sh"]) = some scriptMode ∧
    permsOf fs5 (fp ++ ["setup-makefiles.sh"]) = some scriptMode ∧
    scriptMode = 0o744 ∧
    (∀ q, q ≠ fp ++ ["extract-files.sh"] → q ≠ fp ++ ["setup-makefiles.sh"] →
      permsOf fs5 q = (if fp <+: q then none else permsOf fs q)) := by
  obtain ⟨hfp, fs4, hpre, hrun⟩ := dump_ok_inv dt fs out rmOk fs5 fp h
  subst hfp
  rw [dumpSteps_decomp_chmod, runSteps_append] at hrun
  cases hp : runSteps (renderSteps dt (dtFolder dt out)) fs4 with
  | error e => rw [hp] at hrun; cases hrun
  | ok s₁ =>
    rw [hp] at hrun
    dsimp only [] at hrun
    rw [runSteps_chmod_cons, runSteps_chmod_cons] at hrun
    have hene : dtFolder dt out ++ ["extract-files.sh"] ≠
        dtFolder dt out ++ ["setup-makefiles.sh"] :=
      append_ne_append _ _ _ (by decide)
    have hpres : ∀ q, permsOf fs5 q =
        permsOf (chmodFS (dtFolder dt out ++ ["setup-makefiles.sh"]) scriptMode
          (chmodFS (dtFolder dt out ++ ["extract-files.sh"]) scriptMode s₁)) q := by
      intro q
      refine runSteps_perms_preserve _ _ fs5 q hrun ?_
      intro st hst d hd
      rw [tailSteps_chmod_nil dt _ st hst] at hd
      cases hd
    have hrpres : ∀ q, permsOf s₁ q = permsOf fs4 q := by
      intro q
      refine runSteps_perms_preserve _ fs4 s₁ q hp ?_
      intro st hst d hd
      rw [renderSteps_chmod_nil dt _ st hst] at hd
      cases hd
    refine ⟨?_, ?_, by decide, ?_⟩
    · rw [hpres, permsOf_chmodFS, if_neg hene, permsOf_chmodFS, if_pos rfl]
    · rw [hpres, permsOf_chmodFS, if_pos rfl]
    · intro q hq1 hq2
      rw [hpres, permsOf_chmodFS, if_neg hq2, permsOf_chmodFS, if_neg hq1, hrpres]
      by_cases hq : dtFolder dt out <+: q
      · rw [if_pos hq]
        exact (duPrelude_under_none dt fs out rmOk fs4 hwf hpre q hq).2
      · rw [if_neg hq]
        exact (duPrelude_outside_eq dt fs out rmOk fs4 hpre q hq).2

theorem generated_scripts_chmod_witness :
    WFb fsEmpty = true ∧
    dump_to_folder dt0 fsEmpty [] true =
      Except.ok (okStateD (dump_to_folder dt0 fsEmpty [] true) fsEmpty, dtFolder dt0 []) ∧
    (permsOf (okStateD (dump_to_folder dt0 fsEmpty [] true) fsEmpty)
        (dtFolder dt0 [] ++ ["extract-files.sh"]) = some scriptMode ∧
      permsOf (okStateD (dump_to_folder dt0 fsEmpty [] true) fsEmpty)
        (dtFolder dt0 [] ++ ["setup-makefiles.sh"]) = some scriptMode ∧
      scriptMode = 0o744 ∧
      (∀ q, q ≠ dtFolder dt0 [] ++ ["extract-files.sh"] →
        q ≠ dtFolder dt0 [] ++ ["setup-makefiles.sh"] →
        permsOf (okStateD (dump_to_folder dt0 fsEmpty [] true) fsEmpty) q =
          (if dtFolder dt0 [] <+: q then none else permsOf fsEmpty q))) :=
  ⟨by decide, by decide,
   generated_scripts_chmod dt0 fsEmpty [] true _ _ (by decide) (by decide)⟩

/-- Claim C6 counterexample: in a concrete successful assembly the mode
explicitly set on `extract-files.sh` is 484 = 0o744, not 0o750 = 488: the
constant `S_IRWXU ||| S_IRGRP ||| S_IROTH` grants group and other only the
read bit, with no group execute bit. -/
theorem scripts_mode_not_0750_cex :
    permsOf (okStateD (dump_to_folder dt0 fsEmpty [] true) fsEmpty)
      (dtFolder dt0 [] ++ ["extract-files.sh"]) = some 484 ∧
    ¬ (permsOf (okStateD (dump_to_folder dt0 fsEmpty [] true) fsEmpty)
      (dtFolder dt0 [] ++ ["extract-files.sh"]) = some 0o750) := by
  decide

/-! ### Claim C7 -/

/-- `true` when the optional artifact path, if present, is not below the
output folder (artifact blobs live in the unpack workspace). -/
def outsideOpt (folder : FPath) (o : Option FPath) : Bool :=
  match o with
  | none => true
  | some p => !(decide (folder <+: p))

def artifactsOutsideB (dt : DeviceTreeM) (folder : FPath) : Bool :=
  outsideOpt folder dt.imageInfo.kernel && outsideOpt folder dt.imageInfo.dt &&
  outsideOpt folder dt.imageInfo.dtb && outsideOpt folder dt.imageInfo.dtbo

theorem outsideOpt_spec (folder : FPath) (o : Option FPath) (p : FPath)
    (ho : outsideOpt folder o = true) (hp : o = some p) : ¬ (folder <+: p) := by
  subst hp
  simpa [outsideOpt] using ho

theorem copyOpt_target_eq (o : Option FPath) (d : FPath) :
    ∀ x ∈ stepTargets (Step.copyOpt o d), x = d := by
  cases o <;> simp [stepTargets]

theorem renderchmod_target_shape (dt : DeviceTreeM) (folder : FPath) :
    ∀ st ∈ renderSteps dt folder ++ chmodSteps folder, ∀ d ∈ stepTargets st,
      ∃ nm : String, d = folder ++ [nm] := by
  intro st hst d hd
  rcases List.mem_append.mp hst with hst | hst
  · exact renderSteps_target_shape dt folder st hst d hd
  · rw [chmodSteps_target_nil folder st hst] at hd
    cases hd

theorem single_ne_two (folder : FPath) (nm a b : String) :
    folder ++ [nm] ≠ folder ++ [a, b] := by
  intro he
  have := List.append_cancel_left he
  simp at this

theorem rc_target_ne_two (folder : FPath) (r : FPath) (a b : String) (hne : a ≠ "recovery") :
    folder ++ ["recovery", "root", lastName r] ≠ folder ++ [a, b] := by
  intro he
  have h2 := List.append_cancel_left he
  simp only [List.cons.injEq] at h2
  exact hne h2.1.symm

theorem runSteps_copyOpt_focus_none (pre post : List Step) (dst : FPath)
    (fs fs' : FSState)
    (h : runSteps (pre ++ Step.copyOpt none dst :: post) fs = Except.ok fs')
    (hpre_dst : ∀ st ∈ pre, ∀ d ∈ stepTargets st, d ≠ dst)
    (hpost_dst : ∀ st ∈ post, ∀ d ∈ stepTargets st, d ≠ dst) :
    lookupFile fs' dst = lookupFile fs dst := by
  refine runSteps_preserve _ fs fs' dst h ?_
  intro st hst d hd
  rcases List.mem_append.mp hst with hst | hst
  · exact hpre_dst st hst d hd
  · rcases List.mem_cons.mp hst with hst | hst
    · rw [hst] at hd
      simp [stepTargets] at hd
    · exact hpost_dst st hst d hd

theorem runSteps_copyOpt_focus_some (pre post : List Step) (s dst : FPath)
    (fs fs' : FSState)
    (h : runSteps (pre ++ Step.copyOpt (some s) dst :: post) fs = Except.ok fs')
    (hpre_src : ∀ st ∈ pre, ∀ d ∈ stepTargets st, d ≠ s)
    (hpost_dst : ∀ st ∈ post, ∀ d ∈ stepTargets st, d ≠ dst) :
    lookupFile fs' dst = lookupFile fs s := by
  have hconv : runSteps (pre ++ Step.copyOpt (some s) dst :: post) fs =
      runSteps (pre ++ Step.copyStep s dst :: post) fs := by
    rw [runSteps_append, runSteps_append]
    cases runSteps pre fs with
    | error e => rfl
    | ok m => exact runSteps_copyOpt_some s dst post m
  rw [hconv] at h
  exact runSteps_copy_focus pre post s dst fs fs' h hpre_src hpost_dst

/-- Claim C7: each of the four binary partition artifacts is copied into
`prebuilt` under its fixed name exactly when it is present in the image
info (the copied content is the source blob's content); an absent artifact
yields no file at its fixed name, absence raises no error, and when all
four are absent the `prebuilt` directory of a successful assembly contains
no entries at all. -/
theorem prebuilt_artifacts_iff_present (dt : DeviceTreeM) (fs : FSState) (out : FPath)
    (rmOk : Bool) (fs5 : FSState) (fp : FPath) (hwf : WFb fs = true)
    (h : dump_to_folder dt fs out rmOk = Except.ok (fs5, fp))
    (hsrc : artifactsOutsideB dt (dtFolder dt out) = true) :
    (lookupFile fs5 (fp ++ ["prebuilt", "kernel"]) = dt.imageInfo.kernel.bind (lookupFile fs)) ∧
    (lookupFile fs5 (fp ++ ["prebuilt", "dt.img"]) = dt.imageInfo.dt.bind (lookupFile fs)) ∧
    (lookupFile fs5 (fp ++ ["prebuilt", "dtb.img"]) = dt.imageInfo.dtb.bind (lookupFile fs)) ∧
    (lookupFile fs5 (fp ++ ["prebuilt", "dtbo.img"]) = dt.imageInfo.dtbo.bind (lookupFile fs)) ∧
    ((dt.imageInfo.kernel.isNone && dt.imageInfo.dt.isNone && dt.imageInfo.dtb.isNone &&
        dt.imageInfo.dtbo.isNone) = true →
      ∀ q, fp ++ ["prebuilt"] <+: q → q ≠ fp ++ ["prebuilt"] → lookupFile fs5 q = none) := by
  obtain ⟨hfp, fs4, hpre, hrun⟩ := dump_ok_inv dt fs out rmOk fs5 fp h
  subst hfp
  simp only [artifactsOutsideB, Bool.and_eq_true] at hsrc
  have hsrck := hsrc.1.1.1
  have hsrcd := hsrc.1.1.2
  have hsrcdb := hsrc.1.2
  have hsrcdbo := hsrc.2
  have hfocus : ∀ (pre post : List Step) (osrc : Option FPath) (nm : String),
      outsideOpt (dtFolder dt out) osrc = true →
      dumpSteps dt (dtFolder dt out) =
        pre ++ Step.copyOpt osrc (dtFolder dt out ++ ["prebuilt", nm]) :: post →
      (∀ st ∈ pre, ∀ d ∈ stepTargets st, d ≠ dtFolder dt out ++ ["prebuilt", nm]) →
      (∀ st ∈ post, ∀ d ∈ stepTargets st, d ≠ dtFolder dt out ++ ["prebuilt", nm]) →
      lookupFile fs5 (dtFolder dt out ++ ["prebuilt", nm]) =
        osrc.bind (lookupFile fs) := by
    intro pre post osrc nm hout hdecomp hpredst hpostdst
    rw [hdecomp] at hrun
    cases hos : osrc with
    | none =>
      rw [hos] at hrun
      rw [runSteps_copyOpt_focus_none pre post _ fs4 fs5 hrun hpredst hpostdst]
      have hq : dtFolder dt out <+: dtFolder dt out ++ ["prebuilt", nm] :=
        List.prefix_append _ _
      rw [(duPrelude_under_none dt fs out rmOk fs4 hwf hpre _ hq).1]
      rfl
    | some s =>
      rw [hos] at hrun
      have hnp := outsideOpt_spec (dtFolder dt out) osrc s hout hos
      have hpresrc : ∀ st ∈ pre, ∀ d ∈ stepTargets st, d ≠ s := by
        intro st hst d hd he
        have hmem : st ∈ dumpSteps dt (dtFolder dt out) := by
          rw [hdecomp]
          exact List.mem_append.mpr (Or.inl hst)
        obtain ⟨r, hr, hdr⟩ := dumpSteps_targets_extend dt (dtFolder dt out) st hmem d hd
        apply hnp
        rw [← he, hdr]
        exact List.prefix_append _ _
      rw [runSteps_copyOpt_focus_some pre post s _ fs4 fs5 hrun hpresrc hpostdst]
      rw [(duPrelude_outside_eq dt fs out rmOk fs4 hpre s hnp).1]
      rfl
  have hpre_rc : ∀ nm : String, ∀ st ∈ renderSteps dt (dtFolder dt out) ++
      chmodSteps (dtFolder dt out), ∀ d ∈ stepTargets st,
      d ≠ dtFolder dt out ++ ["prebuilt", nm] := by
    intro nm st hst d hd he
    obtain ⟨nm2, hnm2⟩ := renderchmod_target_shape dt (dtFolder dt out) st hst d hd
    rw [hnm2] at he
    exact single_ne_two (dtFolder dt out) nm2 "prebuilt" nm he
  have hfr : ∀ nm : String, ∀ st ∈ fstabSteps dt (dtFolder dt out) ++
      rcSteps dt (dtFolder dt out), ∀ d ∈ stepTargets st,
      d ≠ dtFolder dt out ++ ["prebuilt", nm] := by
    intro nm st hst d hd he
    rcases List.mem_append.mp hst with hst | hst
    · rw [fstabSteps_target_shape dt (dtFolder dt out) st hst d hd] at he
      exact single_ne_two (dtFolder dt out) "recovery.fstab" "prebuilt" nm he
    · rw [rcSteps_eq_map] at hst
      obtain ⟨r, hr, hdr⟩ := rcSteps_map_target_shape (dtFolder dt out) dt.initRcs st hst d hd
      rw [hdr] at he
      exact rc_target_ne_two (dtFolder dt out) r "prebuilt" nm (by decide) he
  have hart : ∀ (o : Option FPath) (a nm : String), a ≠ nm →
      ∀ d ∈ stepTargets (Step.copyOpt o (dtFolder dt out ++ ["prebuilt", a])),
      d ≠ dtFolder dt out ++ ["prebuilt", nm] := by
    intro o a nm ha d hd he
    rw [copyOpt_target_eq o _ d hd] at he
    have h2 := List.append_cancel_left he
    simp only [List.cons.injEq] at h2
    exact ha h2.2.1
  have hK := hfocus (renderSteps dt (dtFolder dt out) ++ chmodSteps (dtFolder dt out))
    (Step.copyOpt dt.imageInfo.dt (dtFolder dt out ++ ["prebuilt", "dt.img"]) ::
     Step.copyOpt dt.imageInfo.dtb (dtFolder dt out ++ ["prebuilt", "dtb.img"]) ::
     Step.copyOpt dt.imageInfo.dtbo (dtFolder dt out ++ ["prebuilt", "dtbo.img"]) ::
     (fstabSteps dt (dtFolder dt out) ++ rcSteps dt (dtFolder dt out)))
    dt.imageInfo.kernel "kernel" hsrck
    (by simp [dumpSteps, artifactSteps, List.append_assoc])
    (hpre_rc "kernel")
    (by
      intro st hst d hd
      rcases List.mem_cons.mp hst with hst | hst
      · rw [hst] at hd
        exact hart dt.imageInfo.dt "dt.img" "kernel" (by decide) d hd
      · rcases List.mem_cons.mp hst with hst | hst
        · rw [hst] at hd
          exact hart dt.imageInfo.dtb "dtb.img" "kernel" (by decide) d hd
        · rcases List.mem_cons.mp hst with hst | hst
          · rw [hst] at hd
            exact hart dt.imageInfo.dtbo "dtbo.img" "kernel" (by decide) d hd
          · exact hfr "kernel" st hst d hd)
  have hD := hfocus (renderSteps dt (dtFolder dt out) ++ chmodSteps (dtFolder dt out) ++
      [Step.copyOpt dt.imageInfo.kernel (dtFolder dt out ++ ["prebuilt", "kernel"])])
    (Step.copyOpt dt.imageInfo.dtb (dtFolder dt out ++ ["prebuilt", "dtb.img"]) ::
     Step.copyOpt dt.imageInfo.dtbo (dtFolder dt out ++ ["prebuilt", "dtbo.img"]) ::
     (fstabSteps dt (dtFolder dt out) ++ rcSteps dt (dtFolder dt out)))
    dt.imageInfo.dt "dt.img" hsrcd
    (by simp [dumpSteps, artifactSteps, List.append_assoc])
    (by
      intro st hst d hd
      rcases List.mem_append.mp hst with hst | hst
      · exact hpre_rc "dt.img" st hst d hd
      · rcases List.mem_singleton.mp hst with hst
        rw [hst] at hd
        exact hart dt.imageInfo.kernel "kernel" "dt.img" (by decide) d hd)
    (by
      intro st hst d hd
      rcases List.mem_cons.mp hst with hst | hst
      · rw [hst] at hd
        exact hart dt.imageInfo.dtb "dtb.img" "dt.img" (by decide) d hd
      · rcases List.mem_cons.mp hst with hst | hst
        · rw [hst] at hd
          exact hart dt.imageInfo.dtbo "dtbo.img" "dt.img" (by decide) d hd
        · exact hfr "dt.img" st hst d hd)
  have hDB := hfocus (renderSteps dt (dtFolder dt out) ++ chmodSteps (dtFolder dt out) ++
      [Step.copyOpt dt.imageInfo.kernel (dtFolder dt out ++ ["prebuilt", "kernel"]),
       Step.copyOpt dt.imageInfo.dt (dtFolder dt out ++ ["prebuilt", "dt.img"])])
    (Step.copyOpt dt.imageInfo.dtbo (dtFolder dt out ++ ["prebuilt", "dtbo.img"]) ::
     (fstabSteps dt (dtFolder dt out) ++ rcSteps dt (dtFolder dt out)))
    dt.imageInfo.dtb "dtb.img" hsrcdb
    (by simp [dumpSteps, artifactSteps, List.append_assoc])
    (by
      intro st hst d hd
      rcases List.mem_append.mp hst with hst | hst
      · exact hpre_rc "dtb.img" st hst d hd
      · rcases List.mem_cons.mp hst with hst | hst
        · rw [hst] at hd
          exact hart dt.imageInfo.kernel "kernel" "dtb.img" (by decide) d hd
        · rcases List.mem_singleton.mp hst with hst
          rw [hst] at hd
          exact hart dt.imageInfo.dt "dt.img" "dtb.img" (by decide) d hd)
    (by
      intro st hst d hd
      rcases List.mem_cons.mp hst with hst | hst
      · rw [hst] at hd
        exact hart dt.imageInfo.dtbo "dtbo.img" "dtb.img" (by decide) d hd
      · exact hfr "dtb.img" st hst d hd)
  have hDBO := hfocus (renderSteps dt (dtFolder dt out) ++ chmodSteps (dtFolder dt out) ++
      [Step.copyOpt dt.imageInfo.kernel (dtFolder dt out ++ ["prebuilt", "kernel"]),
       Step.copyOpt dt.imageInfo.dt (dtFolder dt out ++ ["prebuilt", "dt.img"]),
       Step.copyOpt dt.imageInfo.dtb (dtFolder dt out ++ ["prebuilt", "dtb.img"])])
    (fstabSteps dt (dtFolder dt out) ++ rcSteps dt (dtFolder dt out))
    dt.imageInfo.dtbo "dtbo.img" hsrcdbo
    (by simp [dumpSteps, artifactSteps, List.append_assoc])
    (by
      intro st hst d hd
      rcases List.mem_append.mp hst with hst | hst
      · exact hpre_rc "dtbo.img" st hst d hd
      · rcases List.mem_cons.mp hst with hst | hst
        · rw [hst] at hd
          exact hart dt.imageInfo.kernel "kernel" "dtbo.img" (by decide) d hd
        · rcases List.mem_cons.mp hst with hst | hst
          · rw [hst] at hd
            exact hart dt.imageInfo.dt "dt.img" "dtbo.img" (by decide) d hd
          · rcases List.mem_singleton.mp hst with hst
            rw [hst] at hd
            exact hart dt.imageInfo.dtb "dtb.img" "dtbo.img" (by decide) d hd)
    (hfr "dtbo.img")
  refine ⟨hK, hD, hDB, hDBO, ?_⟩
  intro hall q hq hqe
  simp only [Bool.and_eq_true, Option.isNone_iff_eq_none] at hall
  obtain ⟨⟨⟨hk0, hd0⟩, hdb0⟩, hdbo0⟩ := hall
  obtain ⟨t, hqt⟩ := hq
  have ht : t ≠ [] := by
    intro h0
    apply hqe
    rw [← hqt, h0, List.append_nil]
  have hqform : q = dtFolder dt out ++ ("prebuilt" :: t) := by
    rw [← hqt, List.append_assoc]
    rfl
  have hpres : lookupFile fs5 q = lookupFile fs4 q := by
    refine runSteps_preserve _ fs4 fs5 q hrun ?_
    intro st hst d hd he
    simp only [dumpSteps, List.mem_append] at hst
    rcases hst with ((((hst | hst) | hst) | hst) | hst)
    · obtain ⟨nm, hnm⟩ := renderSteps_target_shape dt (dtFolder dt out) st hst d hd
      rw [hnm, hqform] at he
      have h2 := List.append_cancel_left he
      simp only [List.cons.injEq] at h2
      exact ht h2.2.symm
    · rw [chmodSteps_target_nil (dtFolder dt out) st hst] at hd
      cases hd
    · simp only [artifactSteps, List.mem_cons, List.mem_singleton] at hst
      rcases hst with h5 | h5 | h5 | h5 | h5
      · rw [h5, hk0] at hd
        simp [stepTargets] at hd
      · rw [h5, hd0] at hd
        simp [stepTargets] at hd
      · rw [h5, hdb0] at hd
        simp [stepTargets] at hd
      · rw [h5, hdbo0] at hd
        simp [stepTargets] at hd
      · cases h5
    · rw [fstabSteps_target_shape dt (dtFolder dt out) st hst d hd, hqform] at he
      have h2 := List.append_cancel_left he
      simp only [List.cons.injEq] at h2
      exact ht h2.2.symm
    · rw [rcSteps_eq_map] at hst
      obtain ⟨r, hr, hdr⟩ := rcSteps_map_target_shape (dtFolder dt out) dt.initRcs st hst d hd
      rw [hdr, hqform] at he
      have h2 := List.append_cancel_left he
      simp only [List.cons.injEq] at h2
      exact absurd h2.1 (by decide)
  rw [hpres]
  have hqpre : dtFolder dt out <+: q := by
    rw [hqform]
    exact List.prefix_append _ _
  exact (duPrelude_under_none dt fs out rmOk fs4 hwf hpre q hqpre).1


/-- An unpack workspace holding one kernel blob. -/
def fsK : FSState := ⟨[(["blob"], "KERNELDATA")], [[]], []⟩

/-- A device tree whose image has a kernel but no device-tree blobs. -/
def dt1 : DeviceTreeM := ⟨"m", "c", ⟨some ["blob"], none, none, none⟩, "f", [], fun t => t⟩

theorem prebuilt_artifacts_iff_present_witness :
    WFb fsK = true ∧
    dump_to_folder dt1 fsK [] true =
      Except.ok (okStateD (dump_to_folder dt1 fsK [] true) fsK, dtFolder dt1 []) ∧
    artifactsOutsideB dt1 (dtFolder dt1 []) = true ∧
    ((lookupFile (okStateD (dump_to_folder dt1 fsK [] true) fsK)
        (dtFolder dt1 [] ++ ["prebuilt", "kernel"]) =
      dt1.imageInfo.kernel.bind (lookupFile fsK)) ∧
    (lookupFile (okStateD (dump_to_folder dt1 fsK [] true) fsK)
        (dtFolder dt1 [] ++ ["prebuilt", "dt.img"]) =
      dt1.imageInfo.dt.bind (lookupFile fsK)) ∧
    (lookupFile (okStateD (dump_to_folder dt1 fsK [] true) fsK)
        (dtFolder dt1 [] ++ ["prebuilt", "dtb.img"]) =
      dt1.imageInfo.dtb.bind (lookupFile fsK)) ∧
    (lookupFile (okStateD (dump_to_folder dt1 fsK [] true) fsK)
        (dtFolder dt1 [] ++ ["prebuilt", "dtbo.img"]) =
      dt1.imageInfo.dtbo.bind (lookupFile fsK)) ∧
    ((dt1.imageInfo.kernel.isNone && dt1.imageInfo.dt.isNone && dt1.imageInfo.dtb.isNone &&
        dt1.imageInfo.dtbo.isNone) = true →
      ∀ q, dtFolder dt1 [] ++ ["prebuilt"] <+: q → q ≠ dtFolder dt1 [] ++ ["prebuilt"] →
        lookupFile (okStateD (dump_to_folder dt1 fsK [] true) fsK) q = none)) :=
  ⟨by decide, by decide, by decide,
   prebuilt_artifacts_iff_present dt1 fsK [] true _ _ (by decide) (by decide) (by decide)⟩

/-! ### Claim C9 -/

/-- Claim C9: when two of the scanned script directories contribute a boot
script with the same filename, both paths are collected, both are copied to
the same destination `recovery/root/<name>` without any error, and the copy
from the directory scanned last silently overwrites the earlier one: the
final content at `recovery/root/<name>` is the content of the script from
the last-scanned directory that holds one. -/
theorem init_rc_last_scan_wins (dt : DeviceTreeM) (fs : FSState) (out : FPath) (rmOk : Bool)
    (fs5 : FSState) (fp : FPath) (rd : FPath) (name cE cL : String)
    (p₁ p₂ : FPath) (l₁ l₂ l₃ : List FPath)
    (hscan : dt.initRcs = scanInitRcs fs rd)
    (hsplit : scanInitRcs fs rd = l₁ ++ p₁ :: (l₂ ++ p₂ :: l₃))
    (hn₁ : lastName p₁ = name) (hn₂ : lastName p₂ = name)
    (hl₃ : ∀ r ∈ l₃, lastName r ≠ name)
    (hout : ¬ (dtFolder dt out <+: p₂))
    (hc₁ : lookupFile fs p₁ = some cE) (hc₂ : lookupFile fs p₂ = some cL)
    (h : dump_to_folder dt fs out rmOk = Except.ok (fs5, fp)) :
    p₁ ∈ dt.initRcs ∧ p₂ ∈ dt.initRcs ∧
    lookupFile fs5 (fp ++ ["recovery", "root", name]) = some cL := by
  obtain ⟨hfp, fs4, hpre, hrun⟩ := dump_ok_inv dt fs out rmOk fs5 fp h
  subst hfp
  refine ⟨by rw [hscan, hsplit]; simp, by rw [hscan, hsplit]; simp, ?_⟩
  have hdecomp : dumpSteps dt (dtFolder dt out) =
      (renderSteps dt (dtFolder dt out) ++ (chmodSteps (dtFolder dt out) ++
        (artifactSteps dt (dtFolder dt out) ++ (fstabSteps dt (dtFolder dt out) ++
          (l₁.map (fun r => Step.copyStep r
            (dtFolder dt out ++ ["recovery", "root", lastName r])) ++
            (Step.copyStep p₁ (dtFolder dt out ++ ["recovery", "root", lastName p₁]) ::
              l₂.map (fun r => Step.copyStep r
                (dtFolder dt out ++ ["recovery", "root", lastName r])))))))) ++
      Step.copyStep p₂ (dtFolder dt out ++ ["recovery", "root", lastName p₂]) ::
        l₃.map (fun r => Step.copyStep r
          (dtFolder dt out ++ ["recovery", "root", lastName r])) := by
    simp [dumpSteps, rcSteps, hscan, hsplit, List.map_append, List.append_assoc]
  rw [hdecomp] at hrun
  have hpre2 : ∀ st ∈ renderSteps dt (dtFolder dt out) ++ (chmodSteps (dtFolder dt out) ++
      (artifactSteps dt (dtFolder dt out) ++ (fstabSteps dt (dtFolder dt out) ++
        (l₁.map (fun r => Step.copyStep r
          (dtFolder dt out ++ ["recovery", "root", lastName r])) ++
          (Step.copyStep p₁ (dtFolder dt out ++ ["recovery", "root", lastName p₁]) ::
            l₂.map (fun r => Step.copyStep r
              (dtFolder dt out ++ ["recovery", "root", lastName r]))))))),
      ∀ d ∈ stepTargets st, d ≠ p₂ := by
    intro st hst d hd he
    have hmem : st ∈ dumpSteps dt (dtFolder dt out) := by
      rw [hdecomp]
      exact List.mem_append.mpr (Or.inl hst)
    obtain ⟨r, hr, hdr⟩ := dumpSteps_targets_extend dt (dtFolder dt out) st hmem d hd
    apply hout
    rw [← he, hdr]
    exact List.prefix_append _ _
  have hpost : ∀ st ∈ l₃.map (fun r => Step.copyStep r
      (dtFolder dt out ++ ["recovery", "root", lastName r])),
      ∀ d ∈ stepTargets st, d ≠ dtFolder dt out ++ ["recovery", "root", lastName p₂] := by
    intro st hst d hd he
    obtain ⟨r, hr, hdr⟩ := rcSteps_map_target_shape (dtFolder dt out) l₃ st hst d hd
    rw [hdr] at he
    have h2 := List.append_cancel_left he
    simp only [List.cons.injEq] at h2
    exact hl₃ r hr (h2.2.2.1.trans hn₂)
  have hmain := runSteps_copy_focus _ _ p₂
    (dtFolder dt out ++ ["recovery", "root", lastName p₂]) fs4 fs5 hrun hpre2 hpost
  rw [hn₂] at hmain
  rw [hmain, (duPrelude_outside_eq dt fs out rmOk fs4 hpre p₂ hout).1, hc₂]

/-- A ramdisk whose root and `vendor/etc/init` both hold a `twrp.rc`. -/
def fsC9 : FSState :=
  ⟨[(["rd", "twrp.rc"], "ROOT"), (["rd", "vendor", "etc", "init", "twrp.rc"], "VENDOR")],
   [[], ["rd"], ["rd", "vendor"], ["rd", "vendor", "etc"], ["rd", "vendor", "etc", "init"]],
   []⟩

def dt9 : DeviceTreeM :=
  ⟨"m", "c", ⟨none, none, none, none⟩, "f", scanInitRcs fsC9 ["rd"], fun t => t⟩

theorem init_rc_last_scan_wins_witness :
    dt9.initRcs = scanInitRcs fsC9 ["rd"] ∧
    scanInitRcs fsC9 ["rd"] = [] ++ ["rd", "twrp.rc"] ::
      ([] ++ ["rd", "vendor", "etc", "init", "twrp.rc"] :: []) ∧
    lastName ["rd", "twrp.rc"] = "twrp.rc" ∧
    lastName ["rd", "vendor", "etc", "init", "twrp.rc"] = "twrp.rc" ∧
    (∀ r ∈ ([] : List FPath), lastName r ≠ "twrp.rc") ∧
    ¬ (dtFolder dt9 [] <+: ["rd", "vendor", "etc", "init", "twrp.rc"]) ∧
    lookupFile fsC9 ["rd", "twrp.rc"] = some "ROOT" ∧
    lookupFile fsC9 ["rd", "vendor", "etc", "init", "twrp.rc"] = some "VENDOR" ∧
    dump_to_folder dt9 fsC9 [] true =
      Except.ok (okStateD (dump_to_folder dt9 fsC9 [] true) fsC9, dtFolder dt9 []) ∧
    (["rd", "twrp.rc"] ∈ dt9.initRcs ∧
      ["rd", "vendor", "etc", "init", "twrp.rc"] ∈ dt9.initRcs ∧
      lookupFile (okStateD (dump_to_folder dt9 fsC9 [] true) fsC9)
        (dtFolder dt9 [] ++ ["recovery", "root", "twrp.rc"]) = some "VENDOR") :=
  ⟨by decide, by decide, by decide, by decide, by decide, by decide, by decide, by decide,
   by decide,
   init_rc_last_scan_wins dt9 fsC9 [] true _ _ ["rd"] "twrp.rc" "ROOT" "VENDOR"
     ["rd", "twrp.rc"] ["rd", "vendor", "etc", "init", "twrp.rc"] [] [] []
     (by decide) (by decide) (by decide) (by decide) (by decide) (by decide)
     (by decide) (by decide) (by decide)⟩
